import Mathlib

/-!
# Storacha-Filecoin SDK: verification of the registry / escrow / payment core

A shallow embedding of the on-chain and backend core of the repository:

* `FileRegistry.sol`  — file lifecycle ledger (`RegistryState` and its operations);
* `PaymentEscrow.sol` — escrow ledger (`EscrowState`, operations run on the
  combined `SysState` because `depositForFile` performs a cross-contract call
  into the registry's `linkPayment`);
* `payment.service.ts` (`PaymentService.verifyPayment`) — the read-only
  cross-ledger payment check, modelled over oracles for the two contract calls;
* `ucan.service.ts` (`UcanService.verifyRetrievalAccess`) — capability-token
  verification over the parsed token structure.

Machine integers (`uint256`) are modelled as `Nat` together with the checked
arithmetic of Solidity ≥ 0.8: an arithmetic step whose mathematical result
would reach `2^256` reverts (modelled as the `panic` error).  A reverted call
leaves the state unchanged, which the `Except` encoding plus `SysState.run`
capture.  Token transfers performed through the USDFC ERC-20 are recorded in
an append-only `transfers` log on the escrow state.
-/

namespace StorachaSDK

/-- EVM addresses (and backend principals) are modelled as opaque strings. -/
abbrev Address := String

/-- `2^256`, the modulus of `uint256`; Solidity 0.8 checked arithmetic reverts
when a result would reach it. -/
def U : Nat := 2 ^ 256

/-- Revert reasons of the two contracts (each constructor corresponds to one
`require` message or a checked-arithmetic panic). -/
inductive Err where
  | paused            -- Pausable: whenNotPaused failed
  | notPaused         -- Pausable: _unpause when not paused
  | notOwner          -- Ownable: onlyOwner failed
  | emptyCID          -- "FileRegistry: Empty CID"
  | zeroFileSize      -- "FileRegistry: Zero file size"
  | cidExists         -- "FileRegistry: CID already exists"
  | fileNotFound      -- "FileRegistry: File not found"
  | invalidStatus     -- "FileRegistry: Invalid status"
  | paymentRequired   -- "FileRegistry: Payment required"
  | notStored         -- "FileRegistry: Not stored yet"
  | escFileNotFound   -- "PaymentEscrow: File not found"
  | incorrectAmount   -- "PaymentEscrow: Incorrect payment amount"
  | alreadyPaid       -- "PaymentEscrow: File already paid"
  | noPayment         -- "PaymentEscrow: No payment for file"
  | alreadyReleased   -- "PaymentEscrow: Already released"
  | alreadyRefunded   -- "PaymentEscrow: Already refunded"
  | tooEarly          -- "PaymentEscrow: Too early for refund"
  | alreadyStored     -- "PaymentEscrow: File already stored"
  | invalidEscrow     -- "PaymentEscrow: Invalid escrow"
  | panic             -- checked-arithmetic overflow/underflow revert
  deriving DecidableEq, Repr

/-- `FileRegistry.FileStatus`. -/
inductive FileStatus where
  | Uploaded
  | Paid
  | Stored
  | Retrieved
  deriving DecidableEq, Repr

/-- Position of a status in the linear lifecycle
`Uploaded → Paid → Stored → Retrieved`. -/
def FileStatus.ord : FileStatus → Nat
  | .Uploaded => 0
  | .Paid => 1
  | .Stored => 2
  | .Retrieved => 3

/-- `FileRegistry.FileRecord`. -/
structure FileRecord where
  pieceCid : String
  uploader : Address
  fileSize : Nat
  storagePrice : Nat
  uploadTime : Nat
  paidTime : Nat
  storedTime : Nat
  status : FileStatus
  metadataHash : Nat
  exists_ : Bool
  deriving DecidableEq, Repr

/-- The all-zero record an untouched EVM storage slot decodes to. -/
def defaultFileRecord : FileRecord :=
  { pieceCid := "", uploader := "", fileSize := 0, storagePrice := 0,
    uploadTime := 0, paidTime := 0, storedTime := 0, status := .Uploaded,
    metadataHash := 0, exists_ := false }

/-- Storage of the `FileRegistry` contract.  Solidity mappings are total
functions defaulting to the all-zero value. -/
structure RegistryState where
  files : Nat → FileRecord
  cidToFileId : String → Nat
  userFiles : Address → List Nat
  nextFileId : Nat
  totalFiles : Nat
  pricePerByte : Nat
  owner : Address
  paused : Bool

/-- `FileRegistry` right after the constructor ran with `deployer` as sender. -/
def initRegistry (deployer : Address) : RegistryState :=
  { files := fun _ => defaultFileRecord, cidToFileId := fun _ => 0,
    userFiles := fun _ => [], nextFileId := 1, totalFiles := 0,
    pricePerByte := 10 ^ 12, owner := deployer, paused := false }

/-- `FileRegistry.calculateStoragePrice` (the `view` body; the overflow check
on the multiplication is applied at its use sites). -/
def RegistryState.calculateStoragePrice (s : RegistryState) (fileSize : Nat) : Nat :=
  fileSize * s.pricePerByte

/-- `FileRegistry.registerFile`.  Follows the source order: `whenNotPaused`,
the three `require`s, then `fileId = nextFileId++`, the price computation and
the stores.  The fresh record keeps whatever `paidTime`/`storedTime` the slot
already held, exactly as the Solidity assignment-by-field does. -/
def RegistryState.registerFile (s : RegistryState) (sender : Address) (now : Nat)
    (pieceCid : String) (fileSize : Nat) (metadataHash : Nat) :
    Except Err (RegistryState × Nat) :=
  if s.paused then .error .paused
  else if pieceCid = "" then .error .emptyCID
  else if fileSize = 0 then .error .zeroFileSize
  else if s.cidToFileId pieceCid ≠ 0 then .error .cidExists
  else if s.nextFileId + 1 ≥ U then .error .panic
  else if s.calculateStoragePrice fileSize ≥ U then .error .panic
  else if s.totalFiles + 1 ≥ U then .error .panic
  else
    let fileId := s.nextFileId
    let price := s.calculateStoragePrice fileSize
    let r := { s.files fileId with
                 pieceCid := pieceCid, uploader := sender, fileSize := fileSize,
                 storagePrice := price, uploadTime := now, status := .Uploaded,
                 metadataHash := metadataHash, exists_ := true }
    .ok ({ s with
            files := fun i => if i = fileId then r else s.files i,
            cidToFileId := fun c => if c = pieceCid then fileId else s.cidToFileId c,
            userFiles := fun a => if a = sender then s.userFiles a ++ [fileId]
                                  else s.userFiles a,
            nextFileId := s.nextFileId + 1,
            totalFiles := s.totalFiles + 1 }, fileId)

/-- `FileRegistry.linkPayment`.  NOTE: the source carries only the
`whenNotPaused` modifier — there is no check at all on `msg.sender`
(`sender` below is unused), although the doc comment says it is called by
the `PaymentEscrow` contract. -/
def RegistryState.linkPayment (s : RegistryState) (sender : Address) (now : Nat)
    (fileId : Nat) (payer : Address) (amount : Nat) : Except Err RegistryState :=
  if s.paused then .error .paused
  else if (s.files fileId).exists_ = false then .error .fileNotFound
  else if (s.files fileId).status ≠ .Uploaded then .error .invalidStatus
  else
    .ok { s with files := fun i =>
            if i = fileId then { s.files fileId with status := .Paid, paidTime := now }
            else s.files i }

/-- `FileRegistry.confirmStorage` (`onlyOwner whenNotPaused`). -/
def RegistryState.confirmStorage (s : RegistryState) (sender : Address) (now : Nat)
    (fileId : Nat) : Except Err RegistryState :=
  if sender ≠ s.owner then .error .notOwner
  else if s.paused then .error .paused
  else if (s.files fileId).exists_ = false then .error .fileNotFound
  else if (s.files fileId).status ≠ .Paid then .error .paymentRequired
  else
    .ok { s with files := fun i =>
            if i = fileId then { s.files fileId with status := .Stored, storedTime := now }
            else s.files i }

/-- `FileRegistry.markRetrieved` (`whenNotPaused`, callable by anyone). -/
def RegistryState.markRetrieved (s : RegistryState) (sender : Address) (now : Nat)
    (fileId : Nat) : Except Err RegistryState :=
  if s.paused then .error .paused
  else if (s.files fileId).exists_ = false then .error .fileNotFound
  else if (s.files fileId).status ≠ .Stored then .error .notStored
  else
    .ok { s with files := fun i =>
            if i = fileId then { s.files fileId with status := .Retrieved }
            else s.files i }

/-- `FileRegistry.getFile`. -/
def RegistryState.getFile (s : RegistryState) (fileId : Nat) : Except Err FileRecord :=
  if (s.files fileId).exists_ = false then .error .fileNotFound
  else .ok (s.files fileId)

/-- `FileRegistry.getFileIdByCid` (0 when the CID is unknown). -/
def RegistryState.getFileIdByCid (s : RegistryState) (pieceCid : String) : Nat :=
  s.cidToFileId pieceCid

/-- `FileRegistry.getFileStatus`: `(isPaid, isStored)`. -/
def RegistryState.getFileStatus (s : RegistryState) (fileId : Nat) :
    Except Err (Bool × Bool) :=
  if (s.files fileId).exists_ = false then .error .fileNotFound
  else
    let st := (s.files fileId).status
    .ok (st == .Paid || st == .Stored || st == .Retrieved,
         st == .Stored || st == .Retrieved)

/-- `FileRegistry.updateStoragePrice` (`onlyOwner`). -/
def RegistryState.updateStoragePrice (s : RegistryState) (sender : Address)
    (newPricePerByte : Nat) : Except Err RegistryState :=
  if sender ≠ s.owner then .error .notOwner
  else .ok { s with pricePerByte := newPricePerByte }

/-- `FileRegistry.pause` (`onlyOwner`; `_pause` requires not paused). -/
def RegistryState.pause (s : RegistryState) (sender : Address) :
    Except Err RegistryState :=
  if sender ≠ s.owner then .error .notOwner
  else if s.paused then .error .paused
  else .ok { s with paused := true }

/-- `FileRegistry.unpause` (`onlyOwner`; `_unpause` requires paused). -/
def RegistryState.unpause (s : RegistryState) (sender : Address) :
    Except Err RegistryState :=
  if sender ≠ s.owner then .error .notOwner
  else if s.paused = false then .error .notPaused
  else .ok { s with paused := false }

/-- `PaymentEscrow.EscrowRecord`. -/
structure EscrowRecord where
  fileId : Nat
  payer : Address
  provider : Address
  amount : Nat
  lockTime : Nat
  released : Bool
  refunded : Bool
  deriving DecidableEq, Repr

/-- The all-zero escrow record of an untouched storage slot. -/
def defaultEscrowRecord : EscrowRecord :=
  { fileId := 0, payer := "", provider := "", amount := 0, lockTime := 0,
    released := false, refunded := false }

/-- One USDFC ERC-20 movement performed by the escrow contract. -/
inductive Transfer where
  | toEscrow (source : Address) (amount : Nat)    -- safeTransferFrom user → contract
  | fromEscrow (dest : Address) (amount : Nat)    -- safeTransfer contract → dest
  deriving DecidableEq, Repr

/-- Storage of the `PaymentEscrow` contract, plus the `transfers` log of the
USDFC movements it performed. -/
structure EscrowState where
  escrows : Nat → EscrowRecord
  fileToEscrow : Nat → Nat
  userEscrows : Address → List Nat
  nextEscrowId : Nat
  treasury : Address
  totalEscrowed : Nat
  totalReleased : Nat
  owner : Address
  paused : Bool
  transfers : List Transfer

/-- `PaymentEscrow` right after its constructor. -/
def initEscrow (deployer treasury : Address) : EscrowState :=
  { escrows := fun _ => defaultEscrowRecord, fileToEscrow := fun _ => 0,
    userEscrows := fun _ => [], nextEscrowId := 1, treasury := treasury,
    totalEscrowed := 0, totalReleased := 0, owner := deployer, paused := false,
    transfers := [] }

/-- The two contracts of one deployment.  Escrow operations run on this
combined state because `depositForFile` calls back into the registry. -/
structure SysState where
  reg : RegistryState
  esc : EscrowState

/-- A fresh deployment: both contracts in their constructor state. -/
def initSys (deployer treasury : Address) : SysState :=
  { reg := initRegistry deployer, esc := initEscrow deployer treasury }

/-- `PaymentEscrow.depositForFile`.  The call into `fileRegistry.getFile`
reverts (with the registry's reason) when the file is missing, so the
contract's own `require(exists, ...)` is unreachable; it is kept verbatim.
The state writes happen before the external `linkPayment` call, but a revert
there aborts the whole transaction, which the `Except` result models. -/
def SysState.depositForFile (st : SysState) (sender : Address) (now : Nat)
    (fileId : Nat) (amount : Nat) : Except Err SysState :=
  if st.esc.paused then .error .paused
  else
    match st.reg.getFile fileId with
    | .error e => .error e
    | .ok f =>
      if f.exists_ = false then .error .escFileNotFound
      else if amount ≠ f.storagePrice then .error .incorrectAmount
      else if st.esc.fileToEscrow fileId ≠ 0 then .error .alreadyPaid
      else
        match st.reg.getFileStatus fileId with
        | .error e => .error e
        | .ok (isPaid, _) =>
          if isPaid then .error .alreadyPaid
          else if st.esc.nextEscrowId + 1 ≥ U then .error .panic
          else if st.esc.totalEscrowed + amount ≥ U then .error .panic
          else
            let escrowId := st.esc.nextEscrowId
            let r := { st.esc.escrows escrowId with
                         fileId := fileId, payer := sender,
                         provider := st.esc.treasury, amount := amount,
                         lockTime := now }
            let esc' := { st.esc with
              escrows := fun e => if e = escrowId then r else st.esc.escrows e,
              fileToEscrow := fun g => if g = fileId then escrowId
                                       else st.esc.fileToEscrow g,
              userEscrows := fun a => if a = sender
                                      then st.esc.userEscrows a ++ [escrowId]
                                      else st.esc.userEscrows a,
              nextEscrowId := st.esc.nextEscrowId + 1,
              totalEscrowed := st.esc.totalEscrowed + amount,
              transfers := st.esc.transfers ++ [.toEscrow sender amount] }
            match st.reg.linkPayment "PaymentEscrow" now fileId sender amount with
            | .error e => .error e
            | .ok reg' => .ok { reg := reg', esc := esc' }

/-- `PaymentEscrow.releasePayment` (`onlyOwner whenNotPaused`). -/
def SysState.releasePayment (st : SysState) (sender : Address) (now : Nat)
    (fileId : Nat) : Except Err SysState :=
  if sender ≠ st.esc.owner then .error .notOwner
  else if st.esc.paused then .error .paused
  else
    let escrowId := st.esc.fileToEscrow fileId
    if escrowId = 0 then .error .noPayment
    else
      let r := st.esc.escrows escrowId
      if r.released then .error .alreadyReleased
      else if r.refunded then .error .alreadyRefunded
      else
        match st.reg.getFileStatus fileId with
        | .error e => .error e
        | .ok (_, isStored) =>
          if isStored = false then .error .notStored
          else if st.esc.totalReleased + r.amount ≥ U then .error .panic
          else
            .ok { st with esc := { st.esc with
              escrows := fun e => if e = escrowId then { r with released := true }
                                  else st.esc.escrows e,
              totalReleased := st.esc.totalReleased + r.amount,
              transfers := st.esc.transfers ++ [.fromEscrow r.provider r.amount] } }

/-- `PaymentEscrow.refundPayment` (`onlyOwner whenNotPaused`); `7 days` is
604800 seconds.  It does not touch `totalEscrowed` or `totalReleased`. -/
def SysState.refundPayment (st : SysState) (sender : Address) (now : Nat)
    (fileId : Nat) : Except Err SysState :=
  if sender ≠ st.esc.owner then .error .notOwner
  else if st.esc.paused then .error .paused
  else
    let escrowId := st.esc.fileToEscrow fileId
    if escrowId = 0 then .error .noPayment
    else
      let r := st.esc.escrows escrowId
      if r.released then .error .alreadyReleased
      else if r.refunded then .error .alreadyRefunded
      else if r.lockTime + 604800 ≥ U then .error .panic
      else if now < r.lockTime + 604800 then .error .tooEarly
      else
        match st.reg.getFileStatus fileId with
        | .error e => .error e
        | .ok (_, isStored) =>
          if isStored then .error .alreadyStored
          else
            .ok { st with esc := { st.esc with
              escrows := fun e => if e = escrowId then { r with refunded := true }
                                  else st.esc.escrows e,
              transfers := st.esc.transfers ++ [.fromEscrow r.payer r.amount] } }

/-- `PaymentEscrow.emergencyRefund` (`onlyOwner whenNotPaused`): bypasses the
timeout and the stored-state check; keyed by escrow id, not file id. -/
def SysState.emergencyRefund (st : SysState) (sender : Address)
    (escrowId : Nat) : Except Err SysState :=
  if sender ≠ st.esc.owner then .error .notOwner
  else if st.esc.paused then .error .paused
  else
    let r := st.esc.escrows escrowId
    if r.amount = 0 then .error .invalidEscrow
    else if r.released then .error .alreadyReleased
    else if r.refunded then .error .alreadyRefunded
    else
      .ok { st with esc := { st.esc with
        escrows := fun e => if e = escrowId then { r with refunded := true }
                            else st.esc.escrows e,
        transfers := st.esc.transfers ++ [.fromEscrow r.payer r.amount] } }

/-- `PaymentEscrow.getEscrowByFile`: `(escrowId, record)`, the record being
the all-zero one when no escrow exists. -/
def EscrowState.getEscrowByFile (e : EscrowState) (fileId : Nat) :
    Nat × EscrowRecord :=
  let escrowId := e.fileToEscrow fileId
  (escrowId, if escrowId ≠ 0 then e.escrows escrowId else defaultEscrowRecord)

/-- `PaymentEscrow.getStats`: totals, pending = escrowed − released (checked
subtraction), next id. -/
def EscrowState.getStats (e : EscrowState) : Except Err (Nat × Nat × Nat × Nat) :=
  if e.totalEscrowed < e.totalReleased then .error .panic
  else .ok (e.totalEscrowed, e.totalReleased,
            e.totalEscrowed - e.totalReleased, e.nextEscrowId)

/-- `PaymentEscrow.updateTreasury` (`onlyOwner`; zero address modelled as ""). -/
def SysState.updateTreasury (st : SysState) (sender : Address)
    (newTreasury : Address) : Except Err SysState :=
  if sender ≠ st.esc.owner then .error .notOwner
  else if newTreasury = "" then .error .invalidEscrow
  else .ok { st with esc := { st.esc with treasury := newTreasury } }

/-- `PaymentEscrow.emergencyWithdraw` (`onlyOwner`): sends `amount` of the
contract's USDFC to the owner.  The `balanceOf` bound lives in the external
token; only the transfer is recorded here. -/
def SysState.emergencyWithdraw (st : SysState) (sender : Address)
    (amount : Nat) : Except Err SysState :=
  if sender ≠ st.esc.owner then .error .notOwner
  else .ok { st with esc := { st.esc with
    transfers := st.esc.transfers ++ [.fromEscrow st.esc.owner amount] } }

/-- `PaymentEscrow.pause`. -/
def SysState.pauseEsc (st : SysState) (sender : Address) : Except Err SysState :=
  if sender ≠ st.esc.owner then .error .notOwner
  else if st.esc.paused then .error .paused
  else .ok { st with esc := { st.esc with paused := true } }

/-- `PaymentEscrow.unpause`. -/
def SysState.unpauseEsc (st : SysState) (sender : Address) : Except Err SysState :=
  if sender ≠ st.esc.owner then .error .notOwner
  else if st.esc.paused = false then .error .notPaused
  else .ok { st with esc := { st.esc with paused := false } }

/-- Every externally callable mutating entry point of the two contracts, with
its caller and the block timestamp it runs at. -/
inductive SysOp where
  | registerFile (sender : Address) (now : Nat) (pieceCid : String)
      (fileSize : Nat) (metadataHash : Nat)
  | linkPayment (sender : Address) (now : Nat) (fileId : Nat)
      (payer : Address) (amount : Nat)
  | confirmStorage (sender : Address) (now : Nat) (fileId : Nat)
  | markRetrieved (sender : Address) (now : Nat) (fileId : Nat)
  | updateStoragePrice (sender : Address) (newPricePerByte : Nat)
  | pauseReg (sender : Address)
  | unpauseReg (sender : Address)
  | depositForFile (sender : Address) (now : Nat) (fileId : Nat) (amount : Nat)
  | releasePayment (sender : Address) (now : Nat) (fileId : Nat)
  | refundPayment (sender : Address) (now : Nat) (fileId : Nat)
  | emergencyRefund (sender : Address) (escrowId : Nat)
  | updateTreasury (sender : Address) (newTreasury : Address)
  | emergencyWithdraw (sender : Address) (amount : Nat)
  | pauseEsc (sender : Address)
  | unpauseEsc (sender : Address)

/-- Submit one transaction: the new state on success, a revert reason else. -/
def SysState.stepOp (st : SysState) : SysOp → Except Err SysState
  | .registerFile sender now cid size md =>
      match st.reg.registerFile sender now cid size md with
      | .error e => .error e
      | .ok (reg', _) => .ok { st with reg := reg' }
  | .linkPayment sender now fileId payer amount =>
      match st.reg.linkPayment sender now fileId payer amount with
      | .error e => .error e
      | .ok reg' => .ok { st with reg := reg' }
  | .confirmStorage sender now fileId =>
      match st.reg.confirmStorage sender now fileId with
      | .error e => .error e
      | .ok reg' => .ok { st with reg := reg' }
  | .markRetrieved sender now fileId =>
      match st.reg.markRetrieved sender now fileId with
      | .error e => .error e
      | .ok reg' => .ok { st with reg := reg' }
  | .updateStoragePrice sender p =>
      match st.reg.updateStoragePrice sender p with
      | .error e => .error e
      | .ok reg' => .ok { st with reg := reg' }
  | .pauseReg sender =>
      match st.reg.pause sender with
      | .error e => .error e
      | .ok reg' => .ok { st with reg := reg' }
  | .unpauseReg sender =>
      match st.reg.unpause sender with
      | .error e => .error e
      | .ok reg' => .ok { st with reg := reg' }
  | .depositForFile sender now fileId amount =>
      st.depositForFile sender now fileId amount
  | .releasePayment sender now fileId => st.releasePayment sender now fileId
  | .refundPayment sender now fileId => st.refundPayment sender now fileId
  | .emergencyRefund sender escrowId => st.emergencyRefund sender escrowId
  | .updateTreasury sender t => st.updateTreasury sender t
  | .emergencyWithdraw sender amount => st.emergencyWithdraw sender amount
  | .pauseEsc sender => st.pauseEsc sender
  | .unpauseEsc sender => st.unpauseEsc sender

/-- Run one transaction with revert semantics: a failed transaction leaves
the state unchanged. -/
def SysState.run (st : SysState) (op : SysOp) : SysState :=
  match st.stepOp op with
  | .ok st' => st'
  | .error _ => st

/-- Run a sequence of transactions, each with revert semantics. -/
def SysState.exec (st : SysState) : List SysOp → SysState
  | [] => st
  | op :: ops => (st.run op).exec ops

/-! ## Backend services (`ucan.service.ts`, `payment.service.ts`) -/

/-- One UCAN capability as carried by the token: `{ with: ..., can: ... }`. -/
structure Capability where
  withRes : String   -- the `with` (resource) field
  can : String       -- the `can` (action) field
  deriving DecidableEq, Repr

/-- The fields of a parsed UCAN relevant to `verifyRetrievalAccess`.
`signatureValid` abstracts whether the token's signature verifies against the
service's issuer key, and `expiration`/`notBefore` are the token's time
bounds; the verification code reads none of the three. -/
structure UcanToken where
  capabilities : List Capability
  expiration : Nat
  notBefore : Nat
  signatureValid : Bool
  deriving DecidableEq, Repr

/-- `UcanService.issueRetrievalToken`: a 3600-second token for
`(storage:<pieceCid>, storage/retrieve)`, signed by the service key. -/
def issueRetrievalToken (now : Nat) (pieceCid : String) : UcanToken :=
  { capabilities := [{ withRes := "storage:" ++ pieceCid, can := "storage/retrieve" }],
    expiration := now + 3600, notBefore := 0, signatureValid := true }

/-- `UcanService.verifyRetrievalAccess`.  `parsed` is the outcome of
`UCAN.parse(encodedToken)` (an exception becomes `.error`, caught and turned
into `false`).  The code then only asks whether SOME capability matches the
resource string `storage:<pieceCid>` and the action `storage/retrieve`; it
never consults the signature, the expiry or the not-before field, and it
takes no clock input at all. -/
def verifyRetrievalAccess (parsed : Except Unit UcanToken) (pieceCid : String) : Bool :=
  match parsed with
  | .error _ => false
  | .ok token =>
      token.capabilities.any fun cap =>
        (cap.withRes == "storage:" ++ pieceCid) && (cap.can == "storage/retrieve")

/-- What §4.4 of the spec requires `verifyRetrievalAccess` to decide, given
the clock reading `now`.  Modelled from the spec: signature valid against the
issuer key, resource `storage:<contentId>` byte-for-byte, action match, and
`now ∈ [notBefore, expiry)`; malformed input is `false`. -/
def specRetrievalAccess (parsed : Except Unit UcanToken) (pieceCid : String)
    (now : Nat) : Bool :=
  match parsed with
  | .error _ => false
  | .ok token =>
      token.signatureValid &&
      token.notBefore ≤ now && now < token.expiration &&
      token.capabilities.any fun cap =>
        (cap.withRes == "storage:" ++ pieceCid) && (cap.can == "storage/retrieve")

/-- JavaScript's `toLowerCase` on the ASCII hex addresses compared here. -/
def lowerAddr (a : Address) : String := a.map Char.toLower

/-- The two read-only contract calls `PaymentService.verifyPayment` makes,
as oracles: `.error` is a thrown/rejected call (RPC fault, revert). -/
structure ChainView where
  getFileIdByCid : String → Except Unit Nat
  getEscrowByFile : Nat → Except Unit (Nat × EscrowRecord)

/-- `PaymentService.verifyPayment`: every thrown collaborator fault is caught
and becomes `false`; `fileId == 0`, `escrowId == 0`, a refunded escrow, a
zero amount, or a payer ≠ principal (compared lowercased) also give `false`. -/
def verifyPayment (view : ChainView) (pieceCid : String) (userAddress : Address) : Bool :=
  match view.getFileIdByCid pieceCid with
  | .error _ => false
  | .ok fileId =>
    if fileId = 0 then false
    else
      match view.getEscrowByFile fileId with
      | .error _ => false
      | .ok (escrowId, r) =>
        if escrowId = 0 then false
        else if r.refunded then false
        else if r.amount = 0 then false
        else if lowerAddr r.payer ≠ lowerAddr userAddress then false
        else true

/-! ## Helper lemmas: how each operation succeeds and what it writes -/

theorem registerFile_ok (s : RegistryState) (sender : Address) (now : Nat)
    (cid : String) (size md : Nat) (s' : RegistryState) (fid : Nat)
    (h : s.registerFile sender now cid size md = .ok (s', fid)) :
    s.paused = false ∧ cid ≠ "" ∧ size ≠ 0 ∧ s.cidToFileId cid = 0 ∧
    s.nextFileId + 1 < U ∧ size * s.pricePerByte < U ∧ fid = s.nextFileId ∧
    s' = { s with
            files := fun i => if i = s.nextFileId then
                { s.files s.nextFileId with
                    pieceCid := cid, uploader := sender, fileSize := size,
                    storagePrice := size * s.pricePerByte, uploadTime := now,
                    status := .Uploaded, metadataHash := md, exists_ := true }
              else s.files i,
            cidToFileId := fun c => if c = cid then s.nextFileId else s.cidToFileId c,
            userFiles := fun a => if a = sender then s.userFiles a ++ [s.nextFileId]
                                  else s.userFiles a,
            nextFileId := s.nextFileId + 1,
            totalFiles := s.totalFiles + 1 } := by
  unfold RegistryState.registerFile RegistryState.calculateStoragePrice at h
  split_ifs at h with h1 h2 h3 h4 h5 h6 h7
  simp only [Except.ok.injEq, Prod.mk.injEq] at h
  refine ⟨by simpa using h1, h2, h3, by omega, by omega, by omega, h.2.symm, ?_⟩
  rw [← h.1]

theorem linkPayment_ok (s : RegistryState) (sender : Address) (now : Nat)
    (fid : Nat) (payer : Address) (amount : Nat) (s' : RegistryState)
    (h : s.linkPayment sender now fid payer amount = .ok s') :
    s.paused = false ∧ (s.files fid).exists_ = true ∧
    (s.files fid).status = .Uploaded ∧
    s' = { s with files := fun i =>
            if i = fid then { s.files fid with status := .Paid, paidTime := now }
            else s.files i } := by
  unfold RegistryState.linkPayment at h
  split_ifs at h with h1 h2 h3
  simp only [Except.ok.injEq] at h
  exact ⟨by simpa using h1, by simpa using h2, by simpa using h3, h.symm⟩

theorem confirmStorage_ok (s : RegistryState) (sender : Address) (now : Nat)
    (fid : Nat) (s' : RegistryState)
    (h : s.confirmStorage sender now fid = .ok s') :
    sender = s.owner ∧ s.paused = false ∧ (s.files fid).exists_ = true ∧
    (s.files fid).status = .Paid ∧
    s' = { s with files := fun i =>
            if i = fid then { s.files fid with status := .Stored, storedTime := now }
            else s.files i } := by
  unfold RegistryState.confirmStorage at h
  split_ifs at h with h1 h2 h3 h4
  simp only [Except.ok.injEq] at h
  exact ⟨by simpa using h1, by simpa using h2, by simpa using h3,
         by simpa using h4, h.symm⟩

theorem markRetrieved_ok (s : RegistryState) (sender : Address) (now : Nat)
    (fid : Nat) (s' : RegistryState)
    (h : s.markRetrieved sender now fid = .ok s') :
    s.paused = false ∧ (s.files fid).exists_ = true ∧
    (s.files fid).status = .Stored ∧
    s' = { s with files := fun i =>
            if i = fid then { s.files fid with status := .Retrieved }
            else s.files i } := by
  unfold RegistryState.markRetrieved at h
  split_ifs at h with h1 h2 h3
  simp only [Except.ok.injEq] at h
  exact ⟨by simpa using h1, by simpa using h2, by simpa using h3, h.symm⟩

theorem updateStoragePrice_ok (s : RegistryState) (sender : Address) (p : Nat)
    (s' : RegistryState) (h : s.updateStoragePrice sender p = .ok s') :
    s' = { s with pricePerByte := p } := by
  unfold RegistryState.updateStoragePrice at h
  split_ifs at h
  simpa using h.symm

theorem pause_ok (s : RegistryState) (sender : Address) (s' : RegistryState)
    (h : s.pause sender = .ok s') : s' = { s with paused := true } := by
  unfold RegistryState.pause at h
  split_ifs at h
  simpa using h.symm

theorem unpause_ok (s : RegistryState) (sender : Address) (s' : RegistryState)
    (h : s.unpause sender = .ok s') : s' = { s with paused := false } := by
  unfold RegistryState.unpause at h
  split_ifs at h
  simpa using h.symm

theorem depositForFile_ok (st : SysState) (sender : Address) (now : Nat)
    (fid amount : Nat) (st' : SysState)
    (h : st.depositForFile sender now fid amount = .ok st') :
    st.esc.paused = false ∧ st.reg.paused = false ∧
    (st.reg.files fid).exists_ = true ∧
    amount = (st.reg.files fid).storagePrice ∧
    st.esc.fileToEscrow fid = 0 ∧
    (st.reg.files fid).status = .Uploaded ∧
    st.esc.nextEscrowId + 1 < U ∧ st.esc.totalEscrowed + amount < U ∧
    st'.reg = { st.reg with files := fun i =>
        if i = fid then { st.reg.files fid with status := .Paid, paidTime := now }
        else (st.reg.files i) } ∧
    st'.esc = { st.esc with
        escrows := fun e => if e = st.esc.nextEscrowId then
            { (st.esc.escrows st.esc.nextEscrowId) with
                fileId := fid, payer := sender, provider := st.esc.treasury,
                amount := amount, lockTime := now }
          else st.esc.escrows e,
        fileToEscrow := fun g => if g = fid then st.esc.nextEscrowId
                                 else st.esc.fileToEscrow g,
        userEscrows := fun a => if a = sender
                                then st.esc.userEscrows a ++ [st.esc.nextEscrowId]
                                else st.esc.userEscrows a,
        nextEscrowId := st.esc.nextEscrowId + 1,
        totalEscrowed := st.esc.totalEscrowed + amount,
        transfers := st.esc.transfers ++ [.toEscrow sender amount] } := by
  unfold SysState.depositForFile at h
  simp only [] at h
  split at h
  · simp at h
  rename_i hp
  split at h
  · simp at h
  rename_i f hg
  split at h
  · simp at h
  rename_i c1
  split at h
  · simp at h
  rename_i c2
  split at h
  · simp at h
  rename_i c3
  split at h
  · simp at h
  rename_i isPaid isStored hs
  split at h
  · simp at h
  rename_i c4
  split at h
  · simp at h
  rename_i c5
  split at h
  · simp at h
  rename_i c6
  split at h
  · simp at h
  rename_i reg' hl
  have hgf : (st.reg.files fid).exists_ = true ∧ f = st.reg.files fid := by
    unfold RegistryState.getFile at hg
    split_ifs at hg with he
    · exact ⟨by simpa using he, by simpa using hg.symm⟩
  obtain ⟨hex, rfl⟩ := hgf
  simp only [Except.ok.injEq] at h
  obtain ⟨hrp, -, hup, hreg⟩ :=
    linkPayment_ok st.reg "PaymentEscrow" now fid sender amount reg' hl
  subst h
  refine ⟨by simpa using hp, hrp, hex, by omega, by simpa using c3,
          hup, by omega, by omega, hreg, ?_⟩
  rfl

theorem releasePayment_ok (st : SysState) (sender : Address) (now : Nat)
    (fid : Nat) (st' : SysState)
    (h : st.releasePayment sender now fid = .ok st') :
    sender = st.esc.owner ∧ st.esc.paused = false ∧
    st.esc.fileToEscrow fid ≠ 0 ∧
    (st.esc.escrows (st.esc.fileToEscrow fid)).released = false ∧
    (st.esc.escrows (st.esc.fileToEscrow fid)).refunded = false ∧
    (st.reg.files fid).exists_ = true ∧
    ((st.reg.files fid).status = .Stored ∨ (st.reg.files fid).status = .Retrieved) ∧
    st.esc.totalReleased + (st.esc.escrows (st.esc.fileToEscrow fid)).amount < U ∧
    st'.reg = st.reg ∧
    st'.esc = { st.esc with
        escrows := fun e => if e = st.esc.fileToEscrow fid then
            { st.esc.escrows (st.esc.fileToEscrow fid) with released := true }
          else st.esc.escrows e,
        totalReleased := st.esc.totalReleased +
          (st.esc.escrows (st.esc.fileToEscrow fid)).amount,
        transfers := st.esc.transfers ++
          [.fromEscrow (st.esc.escrows (st.esc.fileToEscrow fid)).provider
             (st.esc.escrows (st.esc.fileToEscrow fid)).amount] } := by
  unfold SysState.releasePayment at h
  simp only [] at h
  split at h
  · simp at h
  rename_i h1
  split at h
  · simp at h
  rename_i h2
  split at h
  · simp at h
  rename_i h3
  split at h
  · simp at h
  rename_i h4
  split at h
  · simp at h
  rename_i h5
  split at h
  · simp at h
  rename_i isPaid isStored hs
  split at h
  · simp at h
  rename_i h6
  split at h
  · simp at h
  rename_i hov
  have hgs : (st.reg.files fid).exists_ = true ∧
      isStored = ((st.reg.files fid).status == .Stored ||
                  (st.reg.files fid).status == .Retrieved) := by
    unfold RegistryState.getFileStatus at hs
    split_ifs at hs with he
    · simp only [Except.ok.injEq, Prod.mk.injEq] at hs
      exact ⟨by simpa using he, hs.2.symm⟩
  obtain ⟨hex, hst⟩ := hgs
  simp only [Except.ok.injEq] at h
  subst h
  refine ⟨by simpa using h1, by simpa using h2, h3,
          by simpa using h4, by simpa using h5, hex, ?_, by omega, rfl, rfl⟩
  have hb : ((st.reg.files fid).status == .Stored ||
            (st.reg.files fid).status == .Retrieved) = true := by
    rw [← hst]; simpa using h6
  simp only [Bool.or_eq_true, beq_iff_eq] at hb
  exact hb

theorem refundPayment_ok (st : SysState) (sender : Address) (now : Nat)
    (fid : Nat) (st' : SysState)
    (h : st.refundPayment sender now fid = .ok st') :
    sender = st.esc.owner ∧ st.esc.paused = false ∧
    st.esc.fileToEscrow fid ≠ 0 ∧
    (st.esc.escrows (st.esc.fileToEscrow fid)).released = false ∧
    (st.esc.escrows (st.esc.fileToEscrow fid)).refunded = false ∧
    (st.esc.escrows (st.esc.fileToEscrow fid)).lockTime + 604800 ≤ now ∧
    (st.reg.files fid).exists_ = true ∧
    (st.reg.files fid).status ≠ .Stored ∧ (st.reg.files fid).status ≠ .Retrieved ∧
    st'.reg = st.reg ∧
    st'.esc = { st.esc with
        escrows := fun e => if e = st.esc.fileToEscrow fid then
            { st.esc.escrows (st.esc.fileToEscrow fid) with refunded := true }
          else st.esc.escrows e,
        transfers := st.esc.transfers ++
          [.fromEscrow (st.esc.escrows (st.esc.fileToEscrow fid)).payer
             (st.esc.escrows (st.esc.fileToEscrow fid)).amount] } := by
  unfold SysState.refundPayment at h
  simp only [] at h
  split at h
  · simp at h
  rename_i h1
  split at h
  · simp at h
  rename_i h2
  split at h
  · simp at h
  rename_i h3
  split at h
  · simp at h
  rename_i h4
  split at h
  · simp at h
  rename_i h5
  split at h
  · simp at h
  rename_i h6
  split at h
  · simp at h
  rename_i h7
  split at h
  · simp at h
  rename_i isPaid isStored hs
  split at h
  · simp at h
  rename_i h8
  have hgs : (st.reg.files fid).exists_ = true ∧
      isStored = ((st.reg.files fid).status == .Stored ||
                  (st.reg.files fid).status == .Retrieved) := by
    unfold RegistryState.getFileStatus at hs
    split_ifs at hs with he
    · simp only [Except.ok.injEq, Prod.mk.injEq] at hs
      exact ⟨by simpa using he, hs.2.symm⟩
  obtain ⟨hex, hst⟩ := hgs
  simp only [Except.ok.injEq] at h
  subst h
  have hns : ((st.reg.files fid).status == .Stored ||
              (st.reg.files fid).status == .Retrieved) = false := by
    rw [← hst]; simpa using h8
  refine ⟨by simpa using h1, by simpa using h2, h3,
          by simpa using h4, by simpa using h5, by omega, hex, ?_, ?_, rfl, rfl⟩
  · simp only [Bool.or_eq_false_iff, beq_eq_false_iff_ne] at hns
    exact hns.1
  · simp only [Bool.or_eq_false_iff, beq_eq_false_iff_ne] at hns
    exact hns.2

theorem emergencyRefund_ok (st : SysState) (sender : Address)
    (escrowId : Nat) (st' : SysState)
    (h : st.emergencyRefund sender escrowId = .ok st') :
    sender = st.esc.owner ∧ st.esc.paused = false ∧
    (st.esc.escrows escrowId).amount ≠ 0 ∧
    (st.esc.escrows escrowId).released = false ∧
    (st.esc.escrows escrowId).refunded = false ∧
    st'.reg = st.reg ∧
    st'.esc = { st.esc with
        escrows := fun e => if e = escrowId then
            { st.esc.escrows escrowId with refunded := true }
          else st.esc.escrows e,
        transfers := st.esc.transfers ++
          [.fromEscrow (st.esc.escrows escrowId).payer
             (st.esc.escrows escrowId).amount] } := by
  unfold SysState.emergencyRefund at h
  simp only [] at h
  split_ifs at h with h1 h2 h3 h4 h5
  simp only [Except.ok.injEq] at h
  subst h
  exact ⟨by simpa using h1, by simpa using h2, h3,
         by simpa using h4, by simpa using h5, rfl, rfl⟩

theorem updateTreasury_ok (st : SysState) (sender t : Address) (st' : SysState)
    (h : st.updateTreasury sender t = .ok st') :
    st'.reg = st.reg ∧ st' = { st with esc := { st.esc with treasury := t } } := by
  unfold SysState.updateTreasury at h
  split_ifs at h
  simp only [Except.ok.injEq] at h
  exact ⟨by rw [← h], h.symm⟩

theorem emergencyWithdraw_ok (st : SysState) (sender : Address) (amount : Nat)
    (st' : SysState) (h : st.emergencyWithdraw sender amount = .ok st') :
    st'.reg = st.reg ∧ st' = { st with esc := { st.esc with
      transfers := st.esc.transfers ++ [.fromEscrow st.esc.owner amount] } } := by
  unfold SysState.emergencyWithdraw at h
  split_ifs at h
  simp only [Except.ok.injEq] at h
  exact ⟨by rw [← h], h.symm⟩

theorem pauseEsc_ok (st : SysState) (sender : Address) (st' : SysState)
    (h : st.pauseEsc sender = .ok st') :
    st'.reg = st.reg ∧ st' = { st with esc := { st.esc with paused := true } } := by
  unfold SysState.pauseEsc at h
  split_ifs at h
  simp only [Except.ok.injEq] at h
  exact ⟨by rw [← h], h.symm⟩

theorem unpauseEsc_ok (st : SysState) (sender : Address) (st' : SysState)
    (h : st.unpauseEsc sender = .ok st') :
    st'.reg = st.reg ∧ st' = { st with esc := { st.esc with paused := false } } := by
  unfold SysState.unpauseEsc at h
  split_ifs at h
  simp only [Except.ok.injEq] at h
  exact ⟨by rw [← h], h.symm⟩

/-! ## Reachability invariants -/

/-- Invariant of reachable registry states: ids are assigned from 1 upward,
untouched slots (id 0 and ids not yet allocated) hold the all-zero record,
and the CID index is exactly inverse to the `pieceCid` field of the live
records. -/
def RegInv (s : RegistryState) : Prop :=
  1 ≤ s.nextFileId ∧
  (∀ id, id = 0 ∨ s.nextFileId ≤ id → s.files id = defaultFileRecord) ∧
  (∀ cid, s.cidToFileId cid = 0 ∨
     ((s.files (s.cidToFileId cid)).exists_ = true ∧
      (s.files (s.cidToFileId cid)).pieceCid = cid)) ∧
  (∀ id, (s.files id).exists_ = true → s.cidToFileId ((s.files id).pieceCid) = id)

/-- Invariant of reachable escrow states: escrow ids are assigned from 1
upward, untouched escrow slots are all-zero, and the file→escrow index is
exactly inverse to the `fileId` field of the live escrow records (hence at
most one escrow per file). -/
def EscIdx (e : EscrowState) : Prop :=
  1 ≤ e.nextEscrowId ∧
  (∀ i, i = 0 ∨ e.nextEscrowId ≤ i → e.escrows i = defaultEscrowRecord) ∧
  (∀ f, e.fileToEscrow f ≠ 0 →
     e.fileToEscrow f < e.nextEscrowId ∧
     (e.escrows (e.fileToEscrow f)).fileId = f) ∧
  (∀ i, i ≠ 0 → i < e.nextEscrowId →
     (e.escrows i).fileId ≠ 0 ∧
     e.fileToEscrow ((e.escrows i).fileId) = i)

/-- Invariant of reachable combined states. -/
def SysInv (st : SysState) : Prop :=
  RegInv st.reg ∧ EscIdx st.esc

theorem sysInv_init (d t : Address) : SysInv (initSys d t) := by
  refine ⟨⟨by simp [initSys, initRegistry], ?_, ?_, ?_⟩,
          by simp [initSys, initEscrow], ?_, ?_, ?_⟩ <;>
    simp [initSys, initRegistry, initEscrow, defaultFileRecord, defaultEscrowRecord]

/-! ### Extracting the registry call from a system transaction -/

theorem stepOp_registerFile (st : SysState) (sender : Address) (now : Nat)
    (cid : String) (size md : Nat) (st' : SysState)
    (h : st.stepOp (.registerFile sender now cid size md) = .ok st') :
    ∃ reg' fid, st.reg.registerFile sender now cid size md = .ok (reg', fid) ∧
      st' = { st with reg := reg' } := by
  simp only [SysState.stepOp] at h
  split at h
  · simp at h
  rename_i reg' fid hr
  simp only [Except.ok.injEq] at h
  exact ⟨reg', fid, hr, h.symm⟩

theorem stepOp_linkPayment (st : SysState) (sender : Address) (now : Nat)
    (fid : Nat) (payer : Address) (amount : Nat) (st' : SysState)
    (h : st.stepOp (.linkPayment sender now fid payer amount) = .ok st') :
    ∃ reg', st.reg.linkPayment sender now fid payer amount = .ok reg' ∧
      st' = { st with reg := reg' } := by
  simp only [SysState.stepOp] at h
  split at h
  · simp at h
  rename_i reg' hr
  simp only [Except.ok.injEq] at h
  exact ⟨reg', hr, h.symm⟩

theorem stepOp_confirmStorage (st : SysState) (sender : Address) (now : Nat)
    (fid : Nat) (st' : SysState)
    (h : st.stepOp (.confirmStorage sender now fid) = .ok st') :
    ∃ reg', st.reg.confirmStorage sender now fid = .ok reg' ∧
      st' = { st with reg := reg' } := by
  simp only [SysState.stepOp] at h
  split at h
  · simp at h
  rename_i reg' hr
  simp only [Except.ok.injEq] at h
  exact ⟨reg', hr, h.symm⟩

theorem stepOp_markRetrieved (st : SysState) (sender : Address) (now : Nat)
    (fid : Nat) (st' : SysState)
    (h : st.stepOp (.markRetrieved sender now fid) = .ok st') :
    ∃ reg', st.reg.markRetrieved sender now fid = .ok reg' ∧
      st' = { st with reg := reg' } := by
  simp only [SysState.stepOp] at h
  split at h
  · simp at h
  rename_i reg' hr
  simp only [Except.ok.injEq] at h
  exact ⟨reg', hr, h.symm⟩

theorem stepOp_updateStoragePrice (st : SysState) (sender : Address) (p : Nat)
    (st' : SysState)
    (h : st.stepOp (.updateStoragePrice sender p) = .ok st') :
    ∃ reg', st.reg.updateStoragePrice sender p = .ok reg' ∧
      st' = { st with reg := reg' } := by
  simp only [SysState.stepOp] at h
  split at h
  · simp at h
  rename_i reg' hr
  simp only [Except.ok.injEq] at h
  exact ⟨reg', hr, h.symm⟩

theorem stepOp_pauseReg (st : SysState) (sender : Address) (st' : SysState)
    (h : st.stepOp (.pauseReg sender) = .ok st') :
    ∃ reg', st.reg.pause sender = .ok reg' ∧ st' = { st with reg := reg' } := by
  simp only [SysState.stepOp] at h
  split at h
  · simp at h
  rename_i reg' hr
  simp only [Except.ok.injEq] at h
  exact ⟨reg', hr, h.symm⟩

theorem stepOp_unpauseReg (st : SysState) (sender : Address) (st' : SysState)
    (h : st.stepOp (.unpauseReg sender) = .ok st') :
    ∃ reg', st.reg.unpause sender = .ok reg' ∧ st' = { st with reg := reg' } := by
  simp only [SysState.stepOp] at h
  split at h
  · simp at h
  rename_i reg' hr
  simp only [Except.ok.injEq] at h
  exact ⟨reg', hr, h.symm⟩

/-! ### Invariant preservation -/

theorem regInv_registerFile (s : RegistryState) (sender : Address) (now : Nat)
    (cid : String) (size md : Nat) (s2 : RegistryState) (fid : Nat)
    (hinv : RegInv s) (h : s.registerFile sender now cid size md = .ok (s2, fid)) :
    RegInv s2 := by
  obtain ⟨hp, hcne, hsz, hcid0, hlt, hmul, hfid, hshape⟩ :=
    registerFile_ok _ _ _ _ _ _ _ _ h
  obtain ⟨h1, h2, h3, h4⟩ := hinv
  subst hshape
  refine ⟨h1.trans (Nat.le_succ _), ?_, ?_, ?_⟩
  · intro id hid
    simp only at hid ⊢
    have hne : id ≠ s.nextFileId := by omega
    simpa [hne] using h2 id (by omega)
  · intro c
    simp only
    by_cases hc : c = cid
    · subst hc
      right
      simp
    · rcases h3 c with h0 | ⟨he2, hp2⟩
      · left; simpa [hc] using h0
      · right
        have hvne : s.cidToFileId c ≠ s.nextFileId := by
          intro hcon
          have hd := h2 s.nextFileId (Or.inr (le_refl _))
          rw [hcon, hd] at he2
          simp [defaultFileRecord] at he2
        simpa [hc, hvne] using ⟨he2, hp2⟩
  · intro id hex2
    simp only at hex2 ⊢
    by_cases hc : id = s.nextFileId
    · subst hc
      simp
    · have hex3 : (s.files id).exists_ = true := by simpa [hc] using hex2
      have hnc : (s.files id).pieceCid ≠ cid := by
        intro hcon
        have h5 := h4 id hex3
        rw [hcon, hcid0] at h5
        have hd := h2 0 (Or.inl rfl)
        rw [← h5, hd] at hex3
        simp [defaultFileRecord] at hex3
      simpa [hc, hnc] using h4 id hex3

theorem regInv_update (s : RegistryState) (fid : Nat) (r : FileRecord)
    (hex : (s.files fid).exists_ = true)
    (he : r.exists_ = true) (hpc : r.pieceCid = (s.files fid).pieceCid)
    (hinv : RegInv s) :
    RegInv { s with files := fun i => if i = fid then r else s.files i } := by
  obtain ⟨h1, h2, h3, h4⟩ := hinv
  have hrange : ¬(fid = 0 ∨ s.nextFileId ≤ fid) := by
    intro hc
    have hd := h2 fid hc
    rw [hd] at hex
    simp [defaultFileRecord] at hex
  refine ⟨h1, ?_, ?_, ?_⟩
  · intro id hid
    simp only at hid ⊢
    have hne : id ≠ fid := by
      intro hcon
      exact hrange (hcon ▸ hid)
    simpa [hne] using h2 id hid
  · intro c
    simp only
    rcases h3 c with h0 | ⟨he2, hp2⟩
    · left; exact h0
    · right
      by_cases hc : s.cidToFileId c = fid
      · rw [hc, if_pos rfl]
        rw [hc] at hp2
        exact ⟨he, hpc.trans hp2⟩
      · simpa [hc] using ⟨he2, hp2⟩
  · intro id hex2
    simp only at hex2 ⊢
    by_cases hc : id = fid
    · rw [if_pos hc]
      rw [hpc, hc]
      exact h4 fid hex
    · rw [if_neg hc] at hex2 ⊢
      exact h4 id hex2

theorem escIdx_flagUpdate (e e2 : EscrowState) (i0 : Nat) (r2 : EscrowRecord)
    (hesc : e2.escrows = fun i => if i = i0 then r2 else e.escrows i)
    (hmap : e2.fileToEscrow = e.fileToEscrow)
    (hnext : e2.nextEscrowId = e.nextEscrowId)
    (hfid : r2.fileId = (e.escrows i0).fileId)
    (h0 : i0 ≠ 0) (hlt : i0 < e.nextEscrowId)
    (hinv : EscIdx e) : EscIdx e2 := by
  obtain ⟨h1, h2, h3, h4⟩ := hinv
  refine ⟨by omega, ?_, ?_, ?_⟩
  · intro i hi
    rw [hnext] at hi
    have hne : i ≠ i0 := by omega
    simp only [hesc]
    simpa [hne] using h2 i hi
  · intro f hf
    rw [hmap] at hf ⊢
    rw [hnext]
    simp only [hesc]
    obtain ⟨hlt2, hfe⟩ := h3 f hf
    refine ⟨hlt2, ?_⟩
    by_cases hc : e.fileToEscrow f = i0
    · rw [hc, if_pos rfl, hfid, ← hc]
      exact hfe
    · simpa [hc] using hfe
  · intro i hi hilt
    rw [hnext] at hilt
    simp only [hesc, hmap]
    obtain ⟨hne0, hfe⟩ := h4 i hi hilt
    by_cases hc : i = i0
    · subst hc
      rw [if_pos rfl, hfid]
      exact ⟨hne0, hfe⟩
    · rw [if_neg hc]
      exact ⟨hne0, hfe⟩

theorem escIdx_deposit (st : SysState) (sender : Address) (now : Nat)
    (fid amount : Nat) (st2 : SysState)
    (hinv : SysInv st)
    (h : st.depositForFile sender now fid amount = .ok st2) :
    EscIdx st2.esc := by
  obtain ⟨⟨r1, r2, r3, r4⟩, ⟨h1, h2, h3, h4⟩⟩ := hinv
  obtain ⟨hep, hrp, hex, ham, hmap0, hup, hid, hov, hregs, hescs⟩ :=
    depositForFile_ok _ _ _ _ _ _ h
  have hfid0 : fid ≠ 0 := by
    intro hcon
    have hd := r2 0 (Or.inl rfl)
    rw [hcon, hd] at hex
    simp [defaultFileRecord] at hex
  have hE : st2.esc.escrows = fun i => if i = st.esc.nextEscrowId then
      { (st.esc.escrows st.esc.nextEscrowId) with
          fileId := fid, payer := sender, provider := st.esc.treasury,
          amount := amount, lockTime := now }
    else st.esc.escrows i := by rw [hescs]
  have hM : st2.esc.fileToEscrow = fun g => if g = fid then st.esc.nextEscrowId
      else st.esc.fileToEscrow g := by rw [hescs]
  have hN : st2.esc.nextEscrowId = st.esc.nextEscrowId + 1 := by rw [hescs]
  refine ⟨by omega, ?_, ?_, ?_⟩
  · intro i hi
    rw [hN] at hi
    simp only [hE]
    have hne : i ≠ st.esc.nextEscrowId := by omega
    simpa [hne] using h2 i (by omega)
  · intro f hf
    simp only [hM] at hf ⊢
    simp only [hE, hN]
    by_cases hc : f = fid
    · refine ⟨?_, ?_⟩
      · rw [if_pos hc]; omega
      · rw [if_pos hc, if_pos rfl]
        simpa using hc.symm
    · rw [if_neg hc] at hf ⊢
      obtain ⟨hlt2, hfe⟩ := h3 f hf
      have hvn : st.esc.fileToEscrow f ≠ st.esc.nextEscrowId := by omega
      rw [if_neg hvn]
      exact ⟨by omega, hfe⟩
  · intro i hi hilt
    rw [hN] at hilt
    simp only [hE, hM]
    by_cases hc : i = st.esc.nextEscrowId
    · subst hc
      rw [if_pos rfl]
      exact ⟨by simpa using hfid0, by simp⟩
    · rw [if_neg hc]
      have hilt2 : i < st.esc.nextEscrowId := by omega
      obtain ⟨hne0, hfe⟩ := h4 i hi hilt2
      have hkf : (st.esc.escrows i).fileId ≠ fid := by
        intro hcon
        rw [hcon, hmap0] at hfe
        exact hi hfe.symm
      rw [if_neg hkf]
      exact ⟨hne0, hfe⟩

/-- Every transaction (succeeding or reverting) preserves the reachability
invariant. -/
theorem sysInv_run (st : SysState) (op : SysOp) (h : SysInv st) :
    SysInv (st.run op) := by
  rcases hc : st.stepOp op with e | st2
  · simpa [SysState.run, hc] using h
  · have hrun : st.run op = st2 := by simp [SysState.run, hc]
    rw [hrun]
    cases op with
    | registerFile sender now cid size md =>
        obtain ⟨reg2, fid, hr, hst⟩ := stepOp_registerFile _ _ _ _ _ _ _ hc
        subst hst
        exact ⟨regInv_registerFile _ _ _ _ _ _ _ _ h.1 hr, h.2⟩
    | linkPayment sender now fid payer amount =>
        obtain ⟨reg2, hr, hst⟩ := stepOp_linkPayment _ _ _ _ _ _ _ hc
        subst hst
        obtain ⟨-, hex, -, hsh⟩ := linkPayment_ok _ _ _ _ _ _ _ hr
        subst hsh
        exact ⟨regInv_update _ _ _ hex hex rfl h.1, h.2⟩
    | confirmStorage sender now fid =>
        obtain ⟨reg2, hr, hst⟩ := stepOp_confirmStorage _ _ _ _ _ hc
        subst hst
        obtain ⟨-, -, hex, -, hsh⟩ := confirmStorage_ok _ _ _ _ _ hr
        subst hsh
        exact ⟨regInv_update _ _ _ hex hex rfl h.1, h.2⟩
    | markRetrieved sender now fid =>
        obtain ⟨reg2, hr, hst⟩ := stepOp_markRetrieved _ _ _ _ _ hc
        subst hst
        obtain ⟨-, hex, -, hsh⟩ := markRetrieved_ok _ _ _ _ _ hr
        subst hsh
        exact ⟨regInv_update _ _ _ hex hex rfl h.1, h.2⟩
    | updateStoragePrice sender p =>
        obtain ⟨reg2, hr, hst⟩ := stepOp_updateStoragePrice _ _ _ _ hc
        subst hst
        have hsh := updateStoragePrice_ok _ _ _ _ hr
        subst hsh
        exact h
    | pauseReg sender =>
        obtain ⟨reg2, hr, hst⟩ := stepOp_pauseReg _ _ _ hc
        subst hst
        have hsh := pause_ok _ _ _ hr
        subst hsh
        exact h
    | unpauseReg sender =>
        obtain ⟨reg2, hr, hst⟩ := stepOp_unpauseReg _ _ _ hc
        subst hst
        have hsh := unpause_ok _ _ _ hr
        subst hsh
        exact h
    | depositForFile sender now fid amount =>
        have hd : st.depositForFile sender now fid amount = .ok st2 := hc
        obtain ⟨hep, hrp, hex, ham, hmap0, hup, hid, hov, hregs, hescs⟩ :=
          depositForFile_ok _ _ _ _ _ _ hd
        refine ⟨?_, escIdx_deposit _ _ _ _ _ _ h hd⟩
        rw [hregs]
        exact regInv_update _ _ _ hex hex rfl h.1
    | releasePayment sender now fid =>
        have hd : st.releasePayment sender now fid = .ok st2 := hc
        obtain ⟨hs1, hs2, hne, hrel, href, hex, hsts, hov, hregs, hescs⟩ :=
          releasePayment_ok _ _ _ _ _ hd
        refine ⟨by rw [hregs]; exact h.1, ?_⟩
        exact escIdx_flagUpdate st.esc st2.esc (st.esc.fileToEscrow fid)
          { (st.esc.escrows (st.esc.fileToEscrow fid)) with released := true }
          (by rw [hescs]) (by rw [hescs]) (by rw [hescs]) rfl hne
          (h.2.2.2.1 fid hne).1 h.2
    | refundPayment sender now fid =>
        have hd : st.refundPayment sender now fid = .ok st2 := hc
        obtain ⟨hs1, hs2, hne, hrel, href, htime, hex, hns, hnr, hregs, hescs⟩ :=
          refundPayment_ok _ _ _ _ _ hd
        refine ⟨by rw [hregs]; exact h.1, ?_⟩
        exact escIdx_flagUpdate st.esc st2.esc (st.esc.fileToEscrow fid)
          { (st.esc.escrows (st.esc.fileToEscrow fid)) with refunded := true }
          (by rw [hescs]) (by rw [hescs]) (by rw [hescs]) rfl hne
          (h.2.2.2.1 fid hne).1 h.2
    | emergencyRefund sender i0 =>
        have hd : st.emergencyRefund sender i0 = .ok st2 := hc
        obtain ⟨hs1, hs2, ham, hrel, href, hregs, hescs⟩ :=
          emergencyRefund_ok _ _ _ _ hd
        have hdef : st.esc.escrows i0 = defaultEscrowRecord → False := by
          intro hdf
          rw [hdf] at ham
          simp [defaultEscrowRecord] at ham
        have h0 : i0 ≠ 0 := by
          intro hcon
          exact hdef (h.2.2.1 i0 (Or.inl hcon))
        have hlt : i0 < st.esc.nextEscrowId := by
          by_contra hnl
          exact hdef (h.2.2.1 i0 (Or.inr (by omega)))
        refine ⟨by rw [hregs]; exact h.1, ?_⟩
        exact escIdx_flagUpdate st.esc st2.esc i0
          { (st.esc.escrows i0) with refunded := true }
          (by rw [hescs]) (by rw [hescs]) (by rw [hescs]) rfl h0 hlt h.2
    | updateTreasury sender t =>
        have hd : st.updateTreasury sender t = .ok st2 := hc
        obtain ⟨-, hsh⟩ := updateTreasury_ok _ _ _ _ hd
        subst hsh
        exact h
    | emergencyWithdraw sender amount =>
        have hd : st.emergencyWithdraw sender amount = .ok st2 := hc
        obtain ⟨-, hsh⟩ := emergencyWithdraw_ok _ _ _ _ hd
        subst hsh
        exact h
    | pauseEsc sender =>
        have hd : st.pauseEsc sender = .ok st2 := hc
        obtain ⟨-, hsh⟩ := pauseEsc_ok _ _ _ hd
        subst hsh
        exact h
    | unpauseEsc sender =>
        have hd : st.unpauseEsc sender = .ok st2 := hc
        obtain ⟨-, hsh⟩ := unpauseEsc_ok _ _ _ hd
        subst hsh
        exact h

/-- Invariant holds along every trace from a fresh deployment. -/
theorem sysInv_exec (st : SysState) (ops : List SysOp) (h : SysInv st) :
    SysInv (st.exec ops) := by
  induction ops generalizing st with
  | nil => exact h
  | cons op ops ih => exact ih _ (sysInv_run _ _ h)

theorem exec_append (st : SysState) (l1 l2 : List SysOp) :
    st.exec (l1 ++ l2) = (st.exec l1).exec l2 := by
  induction l1 generalizing st with
  | nil => rfl
  | cons op ops ih => simpa [SysState.exec] using ih (st.run op)

/-! ### How a single transaction can change one file record -/

/-- Equality of the registration-time fields of a file record (everything
except the status and the status timestamps). -/
def frozenEq (a b : FileRecord) : Prop :=
  a.pieceCid = b.pieceCid ∧ a.uploader = b.uploader ∧ a.fileSize = b.fileSize ∧
  a.storagePrice = b.storagePrice ∧ a.uploadTime = b.uploadTime ∧
  a.metadataHash = b.metadataHash ∧ a.exists_ = b.exists_

theorem frozenEq_refl (a : FileRecord) : frozenEq a a :=
  ⟨rfl, rfl, rfl, rfl, rfl, rfl, rfl⟩

theorem frozenEq_trans (a b c : FileRecord) (h1 : frozenEq a b)
    (h2 : frozenEq b c) : frozenEq a c := by
  obtain ⟨x1, x2, x3, x4, x5, x6, x7⟩ := h1
  obtain ⟨y1, y2, y3, y4, y5, y6, y7⟩ := h2
  exact ⟨x1.trans y1, x2.trans y2, x3.trans y3, x4.trans y4,
         x5.trans y5, x6.trans y6, x7.trans y7⟩

/-- One transaction keeps the registration-time fields of every live file
and never decreases any file's lifecycle position. -/
theorem run_file_evolution (st : SysState) (op : SysOp) (f : Nat)
    (hinv : SysInv st) :
    ((st.reg.files f).exists_ = true →
       frozenEq ((st.run op).reg.files f) (st.reg.files f)) ∧
    (st.reg.files f).status.ord ≤ ((st.run op).reg.files f).status.ord := by
  rcases hc : st.stepOp op with e | st2
  · have hrun : st.run op = st := by simp [SysState.run, hc]
    rw [hrun]
    exact ⟨fun _ => frozenEq_refl _, le_refl _⟩
  · have hrun : st.run op = st2 := by simp [SysState.run, hc]
    rw [hrun]
    cases op with
    | registerFile sender now cid size md =>
        obtain ⟨reg2, fid, hr, hst⟩ := stepOp_registerFile _ _ _ _ _ _ _ hc
        subst hst
        obtain ⟨-, -, -, -, -, -, -, hsh⟩ := registerFile_ok _ _ _ _ _ _ _ _ hr
        subst hsh
        by_cases hcf : f = st.reg.nextFileId
        · have hdef : st.reg.files f = defaultFileRecord :=
            hinv.1.2.1 f (Or.inr (le_of_eq hcf.symm))
          constructor
          · intro hex
            rw [hdef] at hex
            simp [defaultFileRecord] at hex
          · rw [hdef]
            simp [defaultFileRecord, hcf, FileStatus.ord]
        · constructor
          · intro hex
            unfold frozenEq
            simp [hcf]
          · simp [hcf]
    | linkPayment sender now fid payer amount =>
        obtain ⟨reg2, hr, hst⟩ := stepOp_linkPayment _ _ _ _ _ _ _ hc
        subst hst
        obtain ⟨-, hex0, hup, hsh⟩ := linkPayment_ok _ _ _ _ _ _ _ hr
        subst hsh
        by_cases hcf : f = fid
        · subst hcf
          constructor
          · intro hex
            unfold frozenEq
            simp
          · rw [hup]
            simp [FileStatus.ord]
        · constructor
          · intro hex
            unfold frozenEq
            simp [hcf]
          · simp [hcf]
    | confirmStorage sender now fid =>
        obtain ⟨reg2, hr, hst⟩ := stepOp_confirmStorage _ _ _ _ _ hc
        subst hst
        obtain ⟨-, -, hex0, hup, hsh⟩ := confirmStorage_ok _ _ _ _ _ hr
        subst hsh
        by_cases hcf : f = fid
        · subst hcf
          constructor
          · intro hex
            unfold frozenEq
            simp
          · rw [hup]
            simp [FileStatus.ord]
        · constructor
          · intro hex
            unfold frozenEq
            simp [hcf]
          · simp [hcf]
    | markRetrieved sender now fid =>
        obtain ⟨reg2, hr, hst⟩ := stepOp_markRetrieved _ _ _ _ _ hc
        subst hst
        obtain ⟨-, hex0, hup, hsh⟩ := markRetrieved_ok _ _ _ _ _ hr
        subst hsh
        by_cases hcf : f = fid
        · subst hcf
          constructor
          · intro hex
            unfold frozenEq
            simp
          · rw [hup]
            simp [FileStatus.ord]
        · constructor
          · intro hex
            unfold frozenEq
            simp [hcf]
          · simp [hcf]
    | updateStoragePrice sender p =>
        obtain ⟨reg2, hr, hst⟩ := stepOp_updateStoragePrice _ _ _ _ hc
        subst hst
        have hsh := updateStoragePrice_ok _ _ _ _ hr
        subst hsh
        exact ⟨fun _ => frozenEq_refl _, le_refl _⟩
    | pauseReg sender =>
        obtain ⟨reg2, hr, hst⟩ := stepOp_pauseReg _ _ _ hc
        subst hst
        have hsh := pause_ok _ _ _ hr
        subst hsh
        exact ⟨fun _ => frozenEq_refl _, le_refl _⟩
    | unpauseReg sender =>
        obtain ⟨reg2, hr, hst⟩ := stepOp_unpauseReg _ _ _ hc
        subst hst
        have hsh := unpause_ok _ _ _ hr
        subst hsh
        exact ⟨fun _ => frozenEq_refl _, le_refl _⟩
    | depositForFile sender now fid amount =>
        have hd : st.depositForFile sender now fid amount = .ok st2 := hc
        obtain ⟨-, -, -, -, -, hup, -, -, hregs, -⟩ :=
          depositForFile_ok _ _ _ _ _ _ hd
        rw [hregs]
        by_cases hcf : f = fid
        · subst hcf
          constructor
          · intro hex
            unfold frozenEq
            simp
          · rw [hup]
            simp [FileStatus.ord]
        · constructor
          · intro hex
            unfold frozenEq
            simp [hcf]
          · simp [hcf]
    | releasePayment sender now fid =>
        have hd : st.releasePayment sender now fid = .ok st2 := hc
        obtain ⟨-, -, -, -, -, -, -, -, hregs, -⟩ := releasePayment_ok _ _ _ _ _ hd
        rw [hregs]
        exact ⟨fun _ => frozenEq_refl _, le_refl _⟩
    | refundPayment sender now fid =>
        have hd : st.refundPayment sender now fid = .ok st2 := hc
        obtain ⟨-, -, -, -, -, -, -, -, -, hregs, -⟩ := refundPayment_ok _ _ _ _ _ hd
        rw [hregs]
        exact ⟨fun _ => frozenEq_refl _, le_refl _⟩
    | emergencyRefund sender i0 =>
        have hd : st.emergencyRefund sender i0 = .ok st2 := hc
        obtain ⟨-, -, -, -, -, hregs, -⟩ := emergencyRefund_ok _ _ _ _ hd
        rw [hregs]
        exact ⟨fun _ => frozenEq_refl _, le_refl _⟩
    | updateTreasury sender t =>
        have hd : st.updateTreasury sender t = .ok st2 := hc
        obtain ⟨-, hsh⟩ := updateTreasury_ok _ _ _ _ hd
        subst hsh
        exact ⟨fun _ => frozenEq_refl _, le_refl _⟩
    | emergencyWithdraw sender amount =>
        have hd : st.emergencyWithdraw sender amount = .ok st2 := hc
        obtain ⟨-, hsh⟩ := emergencyWithdraw_ok _ _ _ _ hd
        subst hsh
        exact ⟨fun _ => frozenEq_refl _, le_refl _⟩
    | pauseEsc sender =>
        have hd : st.pauseEsc sender = .ok st2 := hc
        obtain ⟨-, hsh⟩ := pauseEsc_ok _ _ _ hd
        subst hsh
        exact ⟨fun _ => frozenEq_refl _, le_refl _⟩
    | unpauseEsc sender =>
        have hd : st.unpauseEsc sender = .ok st2 := hc
        obtain ⟨-, hsh⟩ := unpauseEsc_ok _ _ _ hd
        subst hsh
        exact ⟨fun _ => frozenEq_refl _, le_refl _⟩

/-- Trace version of `run_file_evolution`. -/
theorem exec_file_evolution (st : SysState) (ops : List SysOp) (f : Nat)
    (hinv : SysInv st) :
    ((st.reg.files f).exists_ = true →
       frozenEq ((st.exec ops).reg.files f) (st.reg.files f)) ∧
    (st.reg.files f).status.ord ≤ ((st.exec ops).reg.files f).status.ord := by
  induction ops generalizing st with
  | nil => exact ⟨fun _ => frozenEq_refl _, le_refl _⟩
  | cons op ops ih =>
    have h1 := run_file_evolution st op f hinv
    have h2 := ih (st.run op) (sysInv_run _ _ hinv)
    simp only [SysState.exec]
    constructor
    · intro hex
      have hf1 := h1.1 hex
      have hex2 : ((st.run op).reg.files f).exists_ = true := by
        rw [hf1.2.2.2.2.2.2]
        exact hex
      exact frozenEq_trans _ _ _ (h2.1 hex2) hf1
    · exact le_trans h1.2 h2.2

/-! ## Claim theorems -/

/-- A parsed token whose only capability matches resource `storage:abc` and
action `storage/retrieve`, but whose signature does NOT verify against the
issuer key and whose expiry (1000) is already in the past at time 1001. -/
def badToken : UcanToken :=
  { capabilities := [{ withRes := "storage:abc", can := "storage/retrieve" }],
    expiration := 1000, notBefore := 0, signatureValid := false }

/-- C1: the claim says `verifyRetrievalAccess` returns true iff the signature
is valid, resource and action match, and the current time lies within
[not-before, expiry).  The code, however, accepts `badToken` — matching
resource and action — although its signature is invalid and the time 1001 is
one second past its expiry 1000; the spec-modelled check rejects it.  The
code checks only resource and action. -/
theorem verifyRetrievalAccess_skips_signature_and_expiry :
    verifyRetrievalAccess (.ok badToken) "abc" = true ∧
    badToken.signatureValid = false ∧
    badToken.expiration = 1000 ∧
    specRetrievalAccess (.ok badToken) "abc" 1001 = false ∧
    (∀ (tok : UcanToken) (cid : String),
      verifyRetrievalAccess (.ok tok) cid =
        tok.capabilities.any fun cap =>
          (cap.withRes == "storage:" ++ cid) && (cap.can == "storage/retrieve")) := by
  refine ⟨by decide, by decide, by decide, by decide, ?_⟩
  intro tok cid
  rfl

/-- C2: the claim says `linkPayment` is restricted to the `PaymentEscrow`
collaborator.  In the code it carries no caller check at all: its outcome is
entirely independent of the caller (and of `payer`/`amount`), and a concrete
run shows an arbitrary address "mallory" moving a freshly registered file to
`Paid` with a zero-amount "payment". -/
theorem linkPayment_has_no_caller_restriction :
    (∀ (s : RegistryState) (s1 s2 : Address) (now fid : Nat)
       (p1 p2 : Address) (a1 a2 : Nat),
        s.linkPayment s1 now fid p1 a1 = s.linkPayment s2 now fid p2 a2) ∧
    ((((initSys "op" "prov").run
          (.registerFile "alice" 100 "qq" 7 0)).run
          (.linkPayment "mallory" 150 1 "mallory" 0)).reg.files 1).status
      = .Paid := by
  constructor
  · intro s s1 s2 now fid p1 p2 a1 a2
    rfl
  · decide

/-- C4: `PaymentService.verifyPayment` returns true iff the CID resolves to a
nonzero fileId, the escrow lookup returns a nonzero escrowId with an
unrefunded record of positive amount whose payer equals the principal after
lowercasing; every collaborator fault (`.error`) and every missing
resolution yields false. -/
theorem verifyPayment_iff (view : ChainView) (cid : String) (user : Address) :
    verifyPayment view cid user = true ↔
      ∃ fileId, view.getFileIdByCid cid = .ok fileId ∧ fileId ≠ 0 ∧
        ∃ escrowId r, view.getEscrowByFile fileId = .ok (escrowId, r) ∧
          escrowId ≠ 0 ∧ r.refunded = false ∧ 0 < r.amount ∧
          lowerAddr r.payer = lowerAddr user := by
  constructor
  · intro h
    unfold verifyPayment at h
    rcases hf : view.getFileIdByCid cid with e | fileId
    all_goals rw [hf] at h
    · simp at h
    simp only [] at h
    by_cases h0 : fileId = 0
    · rw [if_pos h0] at h; simp at h
    rw [if_neg h0] at h
    rcases he : view.getEscrowByFile fileId with e | p
    all_goals rw [he] at h
    · simp at h
    obtain ⟨escrowId, r⟩ := p
    simp only [] at h
    by_cases he0 : escrowId = 0
    · rw [if_pos he0] at h; simp at h
    rw [if_neg he0] at h
    by_cases hr : r.refunded = true
    · rw [if_pos hr] at h; simp at h
    rw [if_neg hr] at h
    by_cases ha : r.amount = 0
    · rw [if_pos ha] at h; simp at h
    rw [if_neg ha] at h
    by_cases hp : lowerAddr r.payer ≠ lowerAddr user
    · rw [if_pos hp] at h; simp at h
    rw [if_neg hp] at h
    push_neg at hp
    exact ⟨fileId, rfl, h0, escrowId, r, he, he0, by simpa using hr,
           Nat.pos_of_ne_zero ha, hp⟩
  · rintro ⟨fileId, hf, h0, escrowId, r, he, he0, hr, ha, hp⟩
    unfold verifyPayment
    rw [hf]
    simp only []
    rw [if_neg h0, he]
    simp only []
    rw [if_neg he0, if_neg (by simp [hr]), if_neg (by omega),
        if_neg (by simp [hp])]

/-- C10: on every trace from a fresh deployment, `nextFileId` stays ≥ 1, id 0
is never a live record, and `getFileIdByCid` returns 0 exactly when no live
record carries that CID (records are never deleted, so "live now" coincides
with "ever registered"). -/
theorem fileId_zero_never_assigned (d t : Address) (ops : List SysOp)
    (cid : String) :
    1 ≤ ((initSys d t).exec ops).reg.nextFileId ∧
    (((initSys d t).exec ops).reg.files 0).exists_ = false ∧
    (((initSys d t).exec ops).reg.getFileIdByCid cid = 0 ↔
      ∀ f, ¬((((initSys d t).exec ops).reg.files f).exists_ = true ∧
             (((initSys d t).exec ops).reg.files f).pieceCid = cid)) := by
  obtain ⟨⟨h1, h2, h3, h4⟩, -⟩ := sysInv_exec _ ops (sysInv_init d t)
  have hz : (((initSys d t).exec ops).reg.files 0).exists_ = false := by
    rw [h2 0 (Or.inl rfl)]
    simp [defaultFileRecord]
  refine ⟨h1, hz, ?_, ?_⟩
  · intro h0 f hcon
    obtain ⟨hex, hpc⟩ := hcon
    have h5 := h4 f hex
    rw [hpc] at h5
    unfold RegistryState.getFileIdByCid at h0
    rw [h0] at h5
    rw [← h5] at hex
    rw [hz] at hex
    exact absurd hex (by simp)
  · intro hall
    unfold RegistryState.getFileIdByCid
    by_contra hne
    rcases h3 cid with h0 | ⟨hex, hpc⟩
    · exact hne h0
    · exact hall _ ⟨hex, hpc⟩

/-- C5: a successful registration records
`storagePrice = fileSize × pricePerByte` at the rate in effect at that
moment, and the recorded price of a live file never changes over any later
sequence of operations (in particular not when `updateStoragePrice` changes
the global rate). -/
theorem storagePrice_fixed_at_registration :
    (∀ (s : RegistryState) (sender : Address) (now : Nat) (cid : String)
       (size md : Nat) (s2 : RegistryState) (fid : Nat),
        s.registerFile sender now cid size md = .ok (s2, fid) →
        (s2.files fid).storagePrice = size * s.pricePerByte ∧
        (s2.files fid).exists_ = true) ∧
    (∀ (d t : Address) (ops more : List SysOp) (f : Nat),
        ((((initSys d t).exec ops).reg.files f).exists_ = true) →
        (((initSys d t).exec (ops ++ more)).reg.files f).storagePrice =
          (((initSys d t).exec ops).reg.files f).storagePrice) := by
  constructor
  · intro s sender now cid size md s2 fid h
    obtain ⟨-, -, -, -, -, -, hfid, hsh⟩ := registerFile_ok _ _ _ _ _ _ _ _ h
    subst hsh
    subst hfid
    constructor <;> simp [RegistryState.calculateStoragePrice]
  · intro d t ops more f hex
    rw [exec_append]
    exact ((exec_file_evolution ((initSys d t).exec ops) more f
      (sysInv_exec _ ops (sysInv_init d t))).1 hex).2.2.2.1

/-- Witness for C5 at a concrete trace: register a 2-byte file at the initial
rate 10^12, then change the global rate to 5; the recorded price stays put. -/
theorem storagePrice_fixed_at_registration_witness :
    ((((initSys "op" "prov").exec
        [.registerFile "alice" 100 "abc" 2 0]).reg.files 1).exists_ = true) ∧
    (((initSys "op" "prov").exec ([.registerFile "alice" 100 "abc" 2 0] ++
        [.updateStoragePrice "op" 5])).reg.files 1).storagePrice =
      (((initSys "op" "prov").exec
        [.registerFile "alice" 100 "abc" 2 0]).reg.files 1).storagePrice :=
  ⟨by decide,
   storagePrice_fixed_at_registration.2 "op" "prov"
     [.registerFile "alice" 100 "abc" 2 0] [.updateStoragePrice "op" 5] 1
     (by decide)⟩

/-- The lifecycle position determines the status. -/
theorem fileStatus_ord_inj (a b : FileStatus) (h : a.ord = b.ord) : a = b := by
  rcases a <;> rcases b <;> first | rfl | simp [FileStatus.ord] at h

/-- C6: each lifecycle transition requires exactly the previous state
(`linkPayment`: Uploaded→Paid, `confirmStorage`: Paid→Stored,
`markRetrieved`: Stored→Retrieved), along any trace the lifecycle position
of every file is non-decreasing, and a status once left is never revisited
(each state is visited at most once). -/
theorem fileStatus_linear_lifecycle :
    (∀ (s : RegistryState) (sender : Address) (now fid : Nat)
       (payer : Address) (amount : Nat) (s2 : RegistryState),
        s.linkPayment sender now fid payer amount = .ok s2 →
        (s.files fid).status = .Uploaded ∧ (s2.files fid).status = .Paid) ∧
    (∀ (s : RegistryState) (sender : Address) (now fid : Nat)
       (s2 : RegistryState),
        s.confirmStorage sender now fid = .ok s2 →
        (s.files fid).status = .Paid ∧ (s2.files fid).status = .Stored) ∧
    (∀ (s : RegistryState) (sender : Address) (now fid : Nat)
       (s2 : RegistryState),
        s.markRetrieved sender now fid = .ok s2 →
        (s.files fid).status = .Stored ∧ (s2.files fid).status = .Retrieved) ∧
    (∀ (d t : Address) (ops more : List SysOp) (f : Nat),
        ((((initSys d t).exec ops).reg.files f).status).ord ≤
          ((((initSys d t).exec (ops ++ more)).reg.files f).status).ord) ∧
    (∀ (d t : Address) (ops1 ops2 ops3 : List SysOp) (f : Nat),
        (((initSys d t).exec ops1).reg.files f).status =
          (((initSys d t).exec ((ops1 ++ ops2) ++ ops3)).reg.files f).status →
        (((initSys d t).exec (ops1 ++ ops2)).reg.files f).status =
          (((initSys d t).exec ops1).reg.files f).status) := by
  have hmono : ∀ (d t : Address) (ops more : List SysOp) (f : Nat),
      ((((initSys d t).exec ops).reg.files f).status).ord ≤
        ((((initSys d t).exec (ops ++ more)).reg.files f).status).ord := by
    intro d t ops more f
    rw [exec_append]
    exact (exec_file_evolution ((initSys d t).exec ops) more f
      (sysInv_exec _ ops (sysInv_init d t))).2
  refine ⟨?_, ?_, ?_, hmono, ?_⟩
  · intro s sender now fid payer amount s2 h
    obtain ⟨-, -, hup, hsh⟩ := linkPayment_ok _ _ _ _ _ _ _ h
    subst hsh
    exact ⟨hup, by simp⟩
  · intro s sender now fid s2 h
    obtain ⟨-, -, -, hup, hsh⟩ := confirmStorage_ok _ _ _ _ _ h
    subst hsh
    exact ⟨hup, by simp⟩
  · intro s sender now fid s2 h
    obtain ⟨-, -, hup, hsh⟩ := markRetrieved_ok _ _ _ _ _ h
    subst hsh
    exact ⟨hup, by simp⟩
  · intro d t ops1 ops2 ops3 f heq
    have m1 := hmono d t ops1 ops2 f
    have m2 := hmono d t (ops1 ++ ops2) ops3 f
    apply fileStatus_ord_inj
    rw [heq] at m1 ⊢
    omega

/-- Witness for C6: after registering a file, appending a pause/unpause pair
leaves its status where it was (and the hypothesis of the no-revisit part is
discharged concretely). -/
theorem fileStatus_linear_lifecycle_witness :
    ((((initSys "op" "prov").exec [.registerFile "alice" 100 "qq" 7 0]).reg.files 1).status =
      (((initSys "op" "prov").exec (([.registerFile "alice" 100 "qq" 7 0] ++
        [.pauseReg "op"]) ++ [.unpauseReg "op"])).reg.files 1).status) ∧
    (((initSys "op" "prov").exec ([.registerFile "alice" 100 "qq" 7 0] ++
        [.pauseReg "op"])).reg.files 1).status =
      (((initSys "op" "prov").exec [.registerFile "alice" 100 "qq" 7 0]).reg.files 1).status :=
  ⟨by decide,
   fileStatus_linear_lifecycle.2.2.2.2 "op" "prov"
     [.registerFile "alice" 100 "qq" 7 0] [.pauseReg "op"] [.unpauseReg "op"] 1
     (by decide)⟩

/-- A fresh deployment by operator "op" with treasury "prov". -/
def demoSys : SysState := initSys "op" "prov"

/-- Register a 2-byte file (id 1, price 2·10^12) and deposit exactly that
amount: file 1 is `Paid` with live unfinalized escrow 1. -/
def demoPaid : SysState := demoSys.exec
  [.registerFile "alice" 100 "abc" 2 0,
   .depositForFile "alice" 200 1 (2 * 10 ^ 12)]

/-- ... then the operator confirms storage: file 1 is `Stored`. -/
def demoStored : SysState := demoPaid.run (.confirmStorage "op" 300 1)

/-- ... then anyone marks it retrieved: file 1 is `Retrieved`, escrow still
unfinalized. -/
def demoRetrieved : SysState := demoStored.run (.markRetrieved "zoe" 400 1)

/-- `releasePayment` reverts whenever the escrow reached by `fid` is already
released or refunded, regardless of caller and time. -/
theorem releasePayment_fails_after_finalized (st : SysState) (sender : Address)
    (now fid : Nat)
    (h : (st.esc.escrows (st.esc.fileToEscrow fid)).released = true ∨
         (st.esc.escrows (st.esc.fileToEscrow fid)).refunded = true) :
    (st.releasePayment sender now fid).isOk = false := by
  unfold SysState.releasePayment
  simp only []
  split
  · rfl
  split
  · rfl
  split
  · rfl
  rcases h with h | h
  · rw [if_pos h]
    rfl
  · by_cases hr2 : (st.esc.escrows (st.esc.fileToEscrow fid)).released = true
    · rw [if_pos hr2]
      rfl
    · rw [if_neg hr2, if_pos h]
      rfl

/-- C3 counterexample: in the reachable state `demoRetrieved` the file's
status is `Retrieved` (not `Stored`) and the escrow is unfinalized, yet
`releasePayment` succeeds: the code gates on `getFileStatus`'s `isStored`,
which is also true for `Retrieved`. -/
theorem releasePayment_succeeds_when_retrieved :
    (demoRetrieved.reg.files 1).status = .Retrieved ∧
    (demoRetrieved.reg.files 1).status ≠ .Stored ∧
    (demoRetrieved.esc.escrows 1).released = false ∧
    (demoRetrieved.esc.escrows 1).refunded = false ∧
    demoRetrieved.esc.fileToEscrow 1 = 1 ∧
    (demoRetrieved.releasePayment "op" 500 1).isOk = true := by decide

/-- C3 (amended): for an operator call on an unpaused contract against a
file with a live escrow, `releasePayment` succeeds iff the escrow is neither
released nor refunded and the file's status is `Stored` OR `Retrieved`; on
success it sets `released := true`, adds the amount to `totalReleased` and
transfers the locked amount to the provider, and no second release of the
same escrow can ever succeed. -/
theorem releasePayment_success_characterization (st : SysState)
    (sender : Address) (now fid : Nat)
    (hsend : sender = st.esc.owner) (hpause : st.esc.paused = false)
    (hesc : st.esc.fileToEscrow fid ≠ 0)
    (hex : (st.reg.files fid).exists_ = true)
    (hov : st.esc.totalReleased +
      (st.esc.escrows (st.esc.fileToEscrow fid)).amount < U) :
    ((st.releasePayment sender now fid).isOk = true ↔
      ((st.esc.escrows (st.esc.fileToEscrow fid)).released = false ∧
       (st.esc.escrows (st.esc.fileToEscrow fid)).refunded = false ∧
       ((st.reg.files fid).status = .Stored ∨
        (st.reg.files fid).status = .Retrieved))) ∧
    (∀ st2, st.releasePayment sender now fid = .ok st2 →
       (st2.esc.escrows (st.esc.fileToEscrow fid)).released = true ∧
       st2.esc.totalReleased = st.esc.totalReleased +
         (st.esc.escrows (st.esc.fileToEscrow fid)).amount ∧
       st2.esc.transfers = st.esc.transfers ++
         [.fromEscrow (st.esc.escrows (st.esc.fileToEscrow fid)).provider
            (st.esc.escrows (st.esc.fileToEscrow fid)).amount] ∧
       (∀ (sender2 : Address) (now2 : Nat),
          (st2.releasePayment sender2 now2 fid).isOk = false)) := by
  constructor
  · constructor
    · intro hok
      rcases hcc : st.releasePayment sender now fid with e | st2
      · rw [hcc] at hok
        simp [Except.isOk, Except.toBool] at hok
      · obtain ⟨-, -, -, hrel, href, -, hsts, -, -, -⟩ :=
          releasePayment_ok _ _ _ _ _ hcc
        exact ⟨hrel, href, hsts⟩
    · rintro ⟨hrel, href, hsts⟩
      have hb : ((st.reg.files fid).status == .Stored ||
                 (st.reg.files fid).status == .Retrieved) = true := by
        rcases hsts with h | h <;> simp [h]
      unfold SysState.releasePayment RegistryState.getFileStatus
      rw [if_neg (by simp [hsend]), if_neg (by simp [hpause])]
      simp only []
      rw [if_neg hesc, if_neg (by simp [hrel]), if_neg (by simp [href]),
          if_neg (by simp [hex])]
      simp only []
      rw [hb]
      rw [if_neg (by simp), if_neg (by omega)]
      rfl
  · intro st2 hok
    obtain ⟨-, -, -, -, -, -, -, -, -, hescs⟩ := releasePayment_ok _ _ _ _ _ hok
    refine ⟨?_, ?_, ?_, ?_⟩
    · rw [hescs]
      simp
    · rw [hescs]
    · rw [hescs]
    · intro sender2 now2
      apply releasePayment_fails_after_finalized
      left
      rw [hescs]
      simp

/-- Witness for C3 at the reachable state `demoStored`. -/
theorem releasePayment_success_characterization_witness :
    ((demoStored.releasePayment "op" 500 1).isOk = true ↔
      ((demoStored.esc.escrows (demoStored.esc.fileToEscrow 1)).released = false ∧
       (demoStored.esc.escrows (demoStored.esc.fileToEscrow 1)).refunded = false ∧
       ((demoStored.reg.files 1).status = .Stored ∨
        (demoStored.reg.files 1).status = .Retrieved))) ∧
    (∀ st2, demoStored.releasePayment "op" 500 1 = .ok st2 →
       (st2.esc.escrows (demoStored.esc.fileToEscrow 1)).released = true ∧
       st2.esc.totalReleased = demoStored.esc.totalReleased +
         (demoStored.esc.escrows (demoStored.esc.fileToEscrow 1)).amount ∧
       st2.esc.transfers = demoStored.esc.transfers ++
         [.fromEscrow
            (demoStored.esc.escrows (demoStored.esc.fileToEscrow 1)).provider
            (demoStored.esc.escrows (demoStored.esc.fileToEscrow 1)).amount] ∧
       (∀ (sender2 : Address) (now2 : Nat),
          (st2.releasePayment sender2 now2 1).isOk = false)) :=
  releasePayment_success_characterization demoStored "op" 500 1
    (by decide) (by decide) (by decide) (by decide) (by decide)

/-- C7 counterexample: in the reachable state `demoRetrieved`, well past the
7-day window, the escrow is unfinalized and the status is `Retrieved` — not
`Stored` — yet `refundPayment` reverts with the `AlreadyStored` reason,
because the code's `isStored` is also true for `Retrieved`. -/
theorem refundPayment_blocked_when_retrieved :
    (demoRetrieved.reg.files 1).status = .Retrieved ∧
    (demoRetrieved.reg.files 1).status ≠ .Stored ∧
    (demoRetrieved.esc.escrows 1).released = false ∧
    (demoRetrieved.esc.escrows 1).refunded = false ∧
    (demoRetrieved.esc.escrows 1).lockTime + 604800 ≤ 900000 ∧
    (demoRetrieved.refundPayment "op" 900000 1).isOk = false := by decide

/-- C7 (amended): for an operator call on an unpaused contract against a
file with a live, unfinalized escrow, `refundPayment` succeeds iff at least
7 days (604800 s) have passed since `lockTime` AND the file's status is
neither `Stored` nor `Retrieved`; on success it sets `refunded := true` and
transfers the locked amount back to the payer. -/
theorem refundPayment_success_characterization (st : SysState)
    (sender : Address) (now fid : Nat)
    (hsend : sender = st.esc.owner) (hpause : st.esc.paused = false)
    (hesc : st.esc.fileToEscrow fid ≠ 0)
    (hex : (st.reg.files fid).exists_ = true)
    (hrel : (st.esc.escrows (st.esc.fileToEscrow fid)).released = false)
    (href : (st.esc.escrows (st.esc.fileToEscrow fid)).refunded = false)
    (hovt : (st.esc.escrows (st.esc.fileToEscrow fid)).lockTime + 604800 < U) :
    ((st.refundPayment sender now fid).isOk = true ↔
      ((st.esc.escrows (st.esc.fileToEscrow fid)).lockTime + 604800 ≤ now ∧
       (st.reg.files fid).status ≠ .Stored ∧
       (st.reg.files fid).status ≠ .Retrieved)) ∧
    (∀ st2, st.refundPayment sender now fid = .ok st2 →
       (st2.esc.escrows (st.esc.fileToEscrow fid)).refunded = true ∧
       st2.esc.transfers = st.esc.transfers ++
         [.fromEscrow (st.esc.escrows (st.esc.fileToEscrow fid)).payer
            (st.esc.escrows (st.esc.fileToEscrow fid)).amount]) := by
  constructor
  · constructor
    · intro hok
      rcases hcc : st.refundPayment sender now fid with e | st2
      · rw [hcc] at hok
        simp [Except.isOk, Except.toBool] at hok
      · obtain ⟨-, -, -, -, -, htime, -, hns, hnr, -, -⟩ :=
          refundPayment_ok _ _ _ _ _ hcc
        exact ⟨htime, hns, hnr⟩
    · rintro ⟨htime, hns, hnr⟩
      have hb : ((st.reg.files fid).status == .Stored ||
                 (st.reg.files fid).status == .Retrieved) = false := by
        rcases hq : (st.reg.files fid).status <;> simp_all
      unfold SysState.refundPayment RegistryState.getFileStatus
      rw [if_neg (by simp [hsend]), if_neg (by simp [hpause])]
      simp only []
      rw [if_neg hesc, if_neg (by simp [hrel]), if_neg (by simp [href]),
          if_neg (by omega), if_neg (by omega), if_neg (by simp [hex])]
      simp only []
      rw [hb]
      rw [if_neg (by simp)]
      rfl
  · intro st2 hok
    obtain ⟨-, -, -, -, -, -, -, -, -, -, hescs⟩ := refundPayment_ok _ _ _ _ _ hok
    constructor
    · rw [hescs]
      simp
    · rw [hescs]

/-- Witness for C7 at the reachable state `demoPaid` (never stored), 7 days
after the deposit at time 200. -/
theorem refundPayment_success_characterization_witness :
    ((demoPaid.refundPayment "op" 900000 1).isOk = true ↔
      ((demoPaid.esc.escrows (demoPaid.esc.fileToEscrow 1)).lockTime + 604800 ≤ 900000 ∧
       (demoPaid.reg.files 1).status ≠ .Stored ∧
       (demoPaid.reg.files 1).status ≠ .Retrieved)) ∧
    (∀ st2, demoPaid.refundPayment "op" 900000 1 = .ok st2 →
       (st2.esc.escrows (demoPaid.esc.fileToEscrow 1)).refunded = true ∧
       st2.esc.transfers = demoPaid.esc.transfers ++
         [.fromEscrow (demoPaid.esc.escrows (demoPaid.esc.fileToEscrow 1)).payer
            (demoPaid.esc.escrows (demoPaid.esc.fileToEscrow 1)).amount]) :=
  refundPayment_success_characterization demoPaid "op" 900000 1
    (by decide) (by decide) (by decide) (by decide) (by decide) (by decide)
    (by decide)

/-- The revert reason of a failed call (`none` when the call succeeded). -/
def errOf {α : Type} (x : Except Err α) : Option Err :=
  match x with
  | .error e => some e
  | .ok _ => none

/-- C8 counterexample: a second deposit against the already-paid file of
`demoPaid` that sends the wrong amount fails with `IncorrectAmount`, not
`AlreadyPaid` — the amount check precedes the already-paid checks. -/
theorem second_deposit_amount_mismatch_error :
    demoPaid.esc.fileToEscrow 1 ≠ 0 ∧
    errOf (demoPaid.depositForFile "bob" 250 1 5) = some .incorrectAmount := by
  decide

/-- C8 (amended): on every trace, distinct live escrow records reference
distinct files (at most one escrow per file, via the file→escrow index); any
deposit against a file that already has an escrow mapping or whose status
has left `Uploaded` fails and leaves the state unchanged, the failure being
`AlreadyPaid` whenever the sent amount equals the recorded price (with a
mismatched amount the amount check fails first). -/
theorem escrow_unique_and_second_deposit_rejected :
    (∀ (d t : Address) (ops : List SysOp) (i j : Nat),
        i ≠ 0 → j ≠ 0 →
        i < ((initSys d t).exec ops).esc.nextEscrowId →
        j < ((initSys d t).exec ops).esc.nextEscrowId →
        (((initSys d t).exec ops).esc.escrows i).fileId =
          (((initSys d t).exec ops).esc.escrows j).fileId →
        i = j) ∧
    (∀ (st : SysState) (sender : Address) (now fid amount : Nat),
        st.esc.paused = false →
        (st.reg.files fid).exists_ = true →
        (st.esc.fileToEscrow fid ≠ 0 ∨ (st.reg.files fid).status ≠ .Uploaded) →
        (st.depositForFile sender now fid amount).isOk = false ∧
        st.run (.depositForFile sender now fid amount) = st ∧
        (amount = (st.reg.files fid).storagePrice →
          st.depositForFile sender now fid amount = .error .alreadyPaid)) := by
  constructor
  · intro d t ops i j hi0 hj0 hilt hjlt heq
    obtain ⟨-, -, -, -, h4⟩ := sysInv_exec _ ops (sysInv_init d t)
    have hi := (h4 i hi0 hilt).2
    have hj := (h4 j hj0 hjlt).2
    rw [← hi, heq, hj]
  · intro st sender now fid amount hpause hex hblocked
    have hfail : ∀ st2, st.depositForFile sender now fid amount = .ok st2 → False := by
      intro st2 hok
      obtain ⟨-, -, -, -, hmap0, hup, -, -, -, -⟩ :=
        depositForFile_ok _ _ _ _ _ _ hok
      rcases hblocked with hb | hb
      · exact hb hmap0
      · exact hb hup
    refine ⟨?_, ?_, ?_⟩
    · rcases hcc : st.depositForFile sender now fid amount with e | st2
      · rfl
      · exact (hfail st2 hcc).elim
    · rcases hcc : st.depositForFile sender now fid amount with e | st2
      · simp [SysState.run, SysState.stepOp, hcc]
      · exact (hfail st2 hcc).elim
    · intro ham
      unfold SysState.depositForFile RegistryState.getFile
      rw [if_neg (by simp [hpause]), if_neg (by simp [hex])]
      simp only []
      rw [if_neg (by simp [hex]), if_neg (by omega)]
      by_cases hm : st.esc.fileToEscrow fid ≠ 0
      · rw [if_pos hm]
      · rw [if_neg hm]
        have hst : (st.reg.files fid).status ≠ .Uploaded := by
          rcases hblocked with hb | hb
          · exact absurd hb hm
          · exact hb
        unfold RegistryState.getFileStatus
        rw [if_neg (by simp [hex])]
        simp only []
        have hb2 : ((st.reg.files fid).status == .Paid ||
            (st.reg.files fid).status == .Stored ||
            (st.reg.files fid).status == .Retrieved) = true := by
          rcases hq : (st.reg.files fid).status <;> simp_all
        rw [hb2, if_pos rfl]

/-- Witness for C8: repeating the deposit of `demoPaid` with the correct
amount fails with `AlreadyPaid` and changes nothing. -/
theorem escrow_unique_and_second_deposit_rejected_witness :
    (demoPaid.depositForFile "bob" 250 1 (2 * 10 ^ 12)).isOk = false ∧
    demoPaid.run (.depositForFile "bob" 250 1 (2 * 10 ^ 12)) = demoPaid ∧
    (2 * 10 ^ 12 = (demoPaid.reg.files 1).storagePrice →
      demoPaid.depositForFile "bob" 250 1 (2 * 10 ^ 12) =
        .error .alreadyPaid) :=
  escrow_unique_and_second_deposit_rejected.2 demoPaid "bob" 250 1
    (2 * 10 ^ 12) (by decide) (by decide) (by decide)

/-- Which operations can move the two running totals. -/
theorem run_esc_totals (st : SysState) (op : SysOp) :
    ((st.run op).esc.totalEscrowed = st.esc.totalEscrowed ∨
      ∃ sender now fid amount, op = .depositForFile sender now fid amount) ∧
    ((st.run op).esc.totalReleased = st.esc.totalReleased ∨
      ∃ sender now fid, op = .releasePayment sender now fid) := by
  rcases hc : st.stepOp op with e | st2
  · have hrun : st.run op = st := by simp [SysState.run, hc]
    rw [hrun]
    exact ⟨Or.inl rfl, Or.inl rfl⟩
  · have hrun : st.run op = st2 := by simp [SysState.run, hc]
    rw [hrun]
    cases op with
    | registerFile sender now cid size md =>
        obtain ⟨reg2, fid, hr, hst⟩ := stepOp_registerFile _ _ _ _ _ _ _ hc
        subst hst
        exact ⟨Or.inl rfl, Or.inl rfl⟩
    | linkPayment sender now fid payer amount =>
        obtain ⟨reg2, hr, hst⟩ := stepOp_linkPayment _ _ _ _ _ _ _ hc
        subst hst
        exact ⟨Or.inl rfl, Or.inl rfl⟩
    | confirmStorage sender now fid =>
        obtain ⟨reg2, hr, hst⟩ := stepOp_confirmStorage _ _ _ _ _ hc
        subst hst
        exact ⟨Or.inl rfl, Or.inl rfl⟩
    | markRetrieved sender now fid =>
        obtain ⟨reg2, hr, hst⟩ := stepOp_markRetrieved _ _ _ _ _ hc
        subst hst
        exact ⟨Or.inl rfl, Or.inl rfl⟩
    | updateStoragePrice sender p =>
        obtain ⟨reg2, hr, hst⟩ := stepOp_updateStoragePrice _ _ _ _ hc
        subst hst
        exact ⟨Or.inl rfl, Or.inl rfl⟩
    | pauseReg sender =>
        obtain ⟨reg2, hr, hst⟩ := stepOp_pauseReg _ _ _ hc
        subst hst
        exact ⟨Or.inl rfl, Or.inl rfl⟩
    | unpauseReg sender =>
        obtain ⟨reg2, hr, hst⟩ := stepOp_unpauseReg _ _ _ hc
        subst hst
        exact ⟨Or.inl rfl, Or.inl rfl⟩
    | depositForFile sender now fid amount =>
        have hd : st.depositForFile sender now fid amount = .ok st2 := hc
        obtain ⟨-, -, -, -, -, -, -, -, -, hescs⟩ :=
          depositForFile_ok _ _ _ _ _ _ hd
        exact ⟨Or.inr ⟨sender, now, fid, amount, rfl⟩, Or.inl (by rw [hescs])⟩
    | releasePayment sender now fid =>
        have hd : st.releasePayment sender now fid = .ok st2 := hc
        obtain ⟨-, -, -, -, -, -, -, -, -, hescs⟩ :=
          releasePayment_ok _ _ _ _ _ hd
        exact ⟨Or.inl (by rw [hescs]), Or.inr ⟨sender, now, fid, rfl⟩⟩
    | refundPayment sender now fid =>
        have hd : st.refundPayment sender now fid = .ok st2 := hc
        obtain ⟨-, -, -, -, -, -, -, -, -, -, hescs⟩ :=
          refundPayment_ok _ _ _ _ _ hd
        exact ⟨Or.inl (by rw [hescs]), Or.inl (by rw [hescs])⟩
    | emergencyRefund sender i0 =>
        have hd : st.emergencyRefund sender i0 = .ok st2 := hc
        obtain ⟨-, -, -, -, -, -, hescs⟩ := emergencyRefund_ok _ _ _ _ hd
        exact ⟨Or.inl (by rw [hescs]), Or.inl (by rw [hescs])⟩
    | updateTreasury sender t =>
        have hd : st.updateTreasury sender t = .ok st2 := hc
        obtain ⟨-, hsh⟩ := updateTreasury_ok _ _ _ _ hd
        subst hsh
        exact ⟨Or.inl rfl, Or.inl rfl⟩
    | emergencyWithdraw sender amount =>
        have hd : st.emergencyWithdraw sender amount = .ok st2 := hc
        obtain ⟨-, hsh⟩ := emergencyWithdraw_ok _ _ _ _ hd
        subst hsh
        exact ⟨Or.inl rfl, Or.inl rfl⟩
    | pauseEsc sender =>
        have hd : st.pauseEsc sender = .ok st2 := hc
        obtain ⟨-, hsh⟩ := pauseEsc_ok _ _ _ hd
        subst hsh
        exact ⟨Or.inl rfl, Or.inl rfl⟩
    | unpauseEsc sender =>
        have hd : st.unpauseEsc sender = .ok st2 := hc
        obtain ⟨-, hsh⟩ := unpauseEsc_ok _ _ _ hd
        subst hsh
        exact ⟨Or.inl rfl, Or.inl rfl⟩

/-- C9: neither `refundPayment` nor `emergencyRefund` touches
`totalEscrowed`/`totalReleased` (so `getStats`, whose pending amount is
`totalEscrowed − totalReleased`, still counts a refunded escrow as
pending); only `depositForFile` can change `totalEscrowed`, and only
`releasePayment` can change `totalReleased`. -/
theorem escrow_totals_frame :
    (∀ (st : SysState) (sender : Address) (now fid : Nat) (st2 : SysState),
        st.refundPayment sender now fid = .ok st2 →
        st2.esc.totalEscrowed = st.esc.totalEscrowed ∧
        st2.esc.totalReleased = st.esc.totalReleased ∧
        st2.esc.getStats = st.esc.getStats) ∧
    (∀ (st : SysState) (sender : Address) (i0 : Nat) (st2 : SysState),
        st.emergencyRefund sender i0 = .ok st2 →
        st2.esc.totalEscrowed = st.esc.totalEscrowed ∧
        st2.esc.totalReleased = st.esc.totalReleased ∧
        st2.esc.getStats = st.esc.getStats) ∧
    (∀ (st : SysState) (op : SysOp),
        (st.run op).esc.totalEscrowed ≠ st.esc.totalEscrowed →
        ∃ sender now fid amount, op = .depositForFile sender now fid amount) ∧
    (∀ (st : SysState) (op : SysOp),
        (st.run op).esc.totalReleased ≠ st.esc.totalReleased →
        ∃ sender now fid, op = .releasePayment sender now fid) ∧
    (∀ e : EscrowState, e.totalReleased ≤ e.totalEscrowed →
        e.getStats = .ok (e.totalEscrowed, e.totalReleased,
          e.totalEscrowed - e.totalReleased, e.nextEscrowId)) := by
  refine ⟨?_, ?_, ?_, ?_, ?_⟩
  · intro st sender now fid st2 h
    obtain ⟨-, -, -, -, -, -, -, -, -, -, hescs⟩ := refundPayment_ok _ _ _ _ _ h
    exact ⟨by rw [hescs], by rw [hescs], by rw [hescs]; rfl⟩
  · intro st sender i0 st2 h
    obtain ⟨-, -, -, -, -, -, hescs⟩ := emergencyRefund_ok _ _ _ _ h
    exact ⟨by rw [hescs], by rw [hescs], by rw [hescs]; rfl⟩
  · intro st op h
    rcases (run_esc_totals st op).1 with he | hop
    · exact absurd he h
    · exact hop
  · intro st op h
    rcases (run_esc_totals st op).2 with he | hop
    · exact absurd he h
    · exact hop
  · intro e h
    unfold EscrowState.getStats
    rw [if_neg (by omega)]

/-- Witness for C9 at the successful refund of `demoPaid` after 7 days. -/
theorem escrow_totals_frame_witness :
    (demoPaid.run (.refundPayment "op" 900000 1)).esc.totalEscrowed =
      demoPaid.esc.totalEscrowed ∧
    (demoPaid.run (.refundPayment "op" 900000 1)).esc.totalReleased =
      demoPaid.esc.totalReleased ∧
    (demoPaid.run (.refundPayment "op" 900000 1)).esc.getStats =
      demoPaid.esc.getStats :=
  escrow_totals_frame.1 demoPaid "op" 900000 1
    (demoPaid.run (.refundPayment "op" 900000 1)) rfl

end StorachaSDK
